import Mathlib

/-!
The vstats agent: connection lifecycle and self-update.

A shallow embedding of `agent-go/websocket.go`, of the Windows branch of
`collectMemoryModules` in `server-go/cmd/agent/memory.go`, and of the handlers
`ListUsers` and `UpdateUser` in `server-go/internal/cloud/handlers/users.go`.

* Go `error` values are `Option String`: `none` is `nil`, `some t` is an error whose
  `Error()` text is `t`.
* `time.Duration` is a signed 64-bit count of nanoseconds: an `Int` that is wrapped
  with `wrapInt64` after the one arithmetic operation `Run` performs on it.
* Calls into the operating system, the network and the JSON library have their
  outcomes supplied by the caller of the model; the model records every such call
  in a trace of `Effect`s.
* `log.Printf` / `log.Println` calls are not recorded.
-/

namespace VStats

/-! ## Durations and the reconnect loop (`Run`) -/

/-- Two's-complement wrap of an integer to the range of Go's `int64`. -/
def wrapInt64 (x : Int) : Int :=
  (x + 9223372036854775808) % 18446744073709551616 - 9223372036854775808

/-- Go's `time.Duration`: nanoseconds. -/
abbrev Duration := Int

/-- Constant `time.Second`. -/
def Second : Duration := 1000000000

/-- Constant `InitialReconnectDelay = 5 * time.Second`. -/
def InitialReconnectDelay : Duration := 5 * Second

/-- Constant `MaxReconnectDelay = 60 * time.Second`. -/
def MaxReconnectDelay : Duration := 60 * Second

/-- What `Run` does that is visible from outside, in program order. -/
inductive RunEvent where
  /-- A call of `connectAndRun` that returned `err`. -/
  | attempt (err : Option String)
  /-- A call `time.Sleep(d)`. -/
  | sleep (d : Duration)
  deriving DecidableEq, Repr

/-- Lines 43-48 of `Run`: the value of `reconnectDelay` once the result of
`connectAndRun` has been inspected. -/
def delayAfterAttempt (reconnectDelay : Duration) (err : Option String) : Duration :=
  match err with
  | some _ => reconnectDelay
  | none => InitialReconnectDelay

/-- Lines 54-57 of `Run`: `reconnectDelay *= 2`, then the cap. -/
def backoff (reconnectDelay : Duration) : Duration :=
  let doubled := wrapInt64 (reconnectDelay * 2)
  if doubled > MaxReconnectDelay then MaxReconnectDelay else doubled

/-- The body of the `for` loop of `Run`, iterated once per element of `results`,
the values returned by the successive calls of `connectAndRun`.  The first
argument is the value of `reconnectDelay` when the iteration starts. -/
def runLoop : Duration → List (Option String) → List RunEvent
  | _, [] => []
  | reconnectDelay, err :: rest =>
    let d := delayAfterAttempt reconnectDelay err
    RunEvent.attempt err :: RunEvent.sleep d :: runLoop (backoff d) rest

/-- The value of `reconnectDelay` after the loop body has run once per element of
`results`. -/
def delayAfter : Duration → List (Option String) → Duration
  | reconnectDelay, [] => reconnectDelay
  | reconnectDelay, err :: rest =>
    delayAfter (backoff (delayAfterAttempt reconnectDelay err)) rest

/-- `Run`: `reconnectDelay := InitialReconnectDelay`, then the loop.  `Run` never
returns; the model gives its behaviour over the first `results.length` attempts. -/
def Run (results : List (Option String)) : List RunEvent :=
  runLoop InitialReconnectDelay results

/-- The arguments of the `time.Sleep` calls of a trace, in order. -/
def sleeps : List RunEvent → List Duration
  | [] => []
  | RunEvent.sleep d :: rest => d :: sleeps rest
  | RunEvent.attempt _ :: rest => sleeps rest

/-! ## Wire messages (`common/websocket.go`, `common/types.go`) -/

/-- Struct `PingTargetConfig`. -/
structure PingTargetConfig where
  Name : String
  Host : String
  Type_ : String
  Port : Int
  deriving DecidableEq, Repr

/-- Struct `AuthMessage`. -/
structure AuthMessage where
  Type_ : String
  ServerID : String
  Token : String
  Version : String
  deriving DecidableEq, Repr

/-- Struct `ServerResponse`, as filled in by `json.Unmarshal`: a member that is
absent from the frame keeps Go's zero value (`""`, `false`, the nil slice).  A nil
slice and an empty slice are both the empty list. -/
structure ServerResponse where
  Type_ : String
  Status : String
  Message : String
  Command : String
  DownloadURL : String
  Force : Bool
  PingTargets : List PingTargetConfig
  deriving DecidableEq, Repr

/-- Struct `SystemMetrics`, the snapshot `Collect` returns.  The agent only
serialises it; the floating-point and time members are left out. -/
structure SystemMetrics where
  Hostname : String
  Uptime : Nat
  Version : String
  deriving DecidableEq, Repr

/-- The fields of `AgentConfig` that `connectAndRun` reads; `WSUrl` is the value
of `config.WSUrl()`. -/
structure AgentConfig where
  WSUrl : String
  ServerID : String
  AgentToken : String
  IntervalSecs : Int
  deriving DecidableEq, Repr

/-! ## The environment -/

/-- Build constants: `runtime.GOOS`, `runtime.GOARCH` and the package constant
`AgentVersion` (declared outside `websocket.go`). -/
structure Platform where
  GOOS : String
  GOARCH : String
  AgentVersion : String
  deriving DecidableEq, Repr

/-- Result of an HTTP GET (`http.Get`, `client.Do`). -/
inductive HttpResult where
  /-- The call returned a non-nil error. -/
  | failed (err : String)
  /-- The call returned a response. -/
  | response (statusCode : Int) (body : String)
  deriving DecidableEq, Repr

/-- Result of `io.Copy(out, resp.Body)`. -/
inductive CopyResult where
  /-- The whole body reached the file. -/
  | ok
  /-- The copy stopped with an error after `written` had reached the file. -/
  | failed (written : String) (err : String)
  deriving DecidableEq, Repr

/-- Outcomes of the calls `handleUpdateCommand` makes into the operating system,
the network and the JSON library.  An `Option String` is the `error` the call
returns. -/
structure Sys where
  /-- Function `os.Executable()`. -/
  executable : Except String String
  /-- Function `http.Get(url)`. -/
  httpGet : String → HttpResult
  /-- Method `client.Do(req)` for the GET request to `url` built by
  `fetchLatestGitHubVersion`. -/
  clientDo : String → HttpResult
  /-- Function `json.Unmarshal(body, &result)` followed by
  `result["tag_name"].(string)`: an error, or the member when it is a string. -/
  unmarshalTagName : String → Except String (Option String)
  /-- Function `os.Create(path)`. -/
  createErr : String → Option String
  /-- Function `io.Copy` into the file at `path` from a body. -/
  copyResult : String → String → CopyResult
  /-- Function `os.Chmod(path, 0755)`. -/
  chmodErr : String → Option String
  /-- Function `os.Rename(src, dst)`. -/
  renameErr : String → String → Option String
  /-- Function `os.Remove(path)`. -/
  removeErr : String → Option String
  /-- Method `exec.Command(argv...).Start()`. -/
  startErr : List String → Option String

/-- The files on disk: path to content. -/
abbrev FileSystem := String → Option String

/-- Everything the agent does to the outside world, in program order. -/
inductive Effect where
  | dial (url : String)
  | writeAuth (msg : AuthMessage)
  | readMessage
  | setPingTargets (targets : List PingTargetConfig)
  | collect
  | writeMetrics (metrics : SystemMetrics)
  | writePing
  | handleUpdate (downloadURL : String) (force : Bool)
  | executable
  | clientDo (url : String)
  | httpGet (url : String)
  | create (path : String)
  | copy (path : String)
  | chmod (path : String)
  | rename (src dst : String)
  | remove (path : String)
  | start (argv : List String)
  | sleep (d : Duration)
  | exit (code : Int)
  deriving DecidableEq, Repr

/-! ## File-system calls -/

/-- The file system with `path` set to hold `content` (or nothing). -/
def FileSystem.set (fs : FileSystem) (path : String) (content : Option String) : FileSystem :=
  fun p => if p = path then content else fs p

/-- Function `os.Create(path)`: creates the file or truncates it. -/
def osCreate (sys : Sys) (path : String) (fs : FileSystem) : Option String × FileSystem :=
  match sys.createErr path with
  | some e => (some e, fs)
  | none => (none, fs.set path (some ""))

/-- Function `os.Remove(path)`. -/
def osRemove (sys : Sys) (path : String) (fs : FileSystem) : Option String × FileSystem :=
  match sys.removeErr path with
  | some e => (some e, fs)
  | none =>
    match fs path with
    | none => (some "no such file or directory", fs)
    | some _ => (none, fs.set path none)

/-- Function `os.Chmod(path, 0755)`. Permission bits are not part of `FileSystem`. -/
def osChmod (sys : Sys) (path : String) (fs : FileSystem) : Option String × FileSystem :=
  match sys.chmodErr path with
  | some e => (some e, fs)
  | none =>
    match fs path with
    | none => (some "no such file or directory", fs)
    | some _ => (none, fs)

/-- Function `os.Rename(src, dst)`: `dst` is replaced by the file at `src`. -/
def osRename (sys : Sys) (src dst : String) (fs : FileSystem) : Option String × FileSystem :=
  match sys.renameErr src dst with
  | some e => (some e, fs)
  | none =>
    match fs src with
    | none => (some "no such file or directory", fs)
    | some content => (none, (fs.set src none).set dst (some content))

/-! ## The self-updater -/

/-- Function `strings.TrimPrefix(s, pre)`. -/
def TrimPrefix (s pre : String) : String :=
  if pre.data.isPrefixOf s.data then String.mk (s.data.drop pre.data.length) else s

/-- Function `downloadFile(url, path)` (lines 328-352): the returned error, the
file system afterwards and the calls made. -/
def downloadFile (sys : Sys) (url path : String) (fs : FileSystem) :
    Option String × FileSystem × List Effect :=
  match sys.httpGet url with
  | HttpResult.failed e => (some ("HTTP request failed: " ++ e), fs, [Effect.httpGet url])
  | HttpResult.response statusCode body =>
    if statusCode ≠ 200 then
      (some ("download failed with status: " ++ toString statusCode), fs, [Effect.httpGet url])
    else
      match osCreate sys path fs with
      | (some e, fs1) =>
        (some ("failed to create file: " ++ e), fs1, [Effect.httpGet url, Effect.create path])
      | (none, fs1) =>
        match sys.copyResult path body with
        | CopyResult.failed written e =>
          let fs2 := fs1.set path (some written)
          (some ("failed to write file: " ++ e), (osRemove sys path fs2).2,
            [Effect.httpGet url, Effect.create path, Effect.copy path, Effect.remove path])
        | CopyResult.ok =>
          (none, fs1.set path (some body),
            [Effect.httpGet url, Effect.create path, Effect.copy path])

/-- Function `fetchLatestGitHubVersion(owner, repo)` (lines 355-385): the returned
pointer (`none` is nil), the returned error, and the calls made. -/
def fetchLatestGitHubVersion (sys : Sys) (owner repo : String) :
    Option String × Option String × List Effect :=
  let url := "https://api.github.com/repos/" ++ owner ++ "/" ++ repo ++ "/releases/latest"
  match sys.clientDo url with
  | HttpResult.failed e => (none, some e, [Effect.clientDo url])
  | HttpResult.response statusCode body =>
    if statusCode ≠ 200 then
      (none, some ("GitHub API returned status: " ++ toString statusCode), [Effect.clientDo url])
    else
      match sys.unmarshalTagName body with
      | Except.error e => (none, some e, [Effect.clientDo url])
      | Except.ok none => (none, some "no tag_name in response", [Effect.clientDo url])
      | Except.ok (some tagName) => (some tagName, none, [Effect.clientDo url])

/-- Lines 219-231 of `handleUpdateCommand`: the name of the release artifact. -/
def binaryName (pf : Platform) : String :=
  let osName := pf.GOOS
  let arch := pf.GOARCH
  let arch :=
    if arch = "amd64" then "amd64"
    else if arch = "arm64" then "arm64"
    else if arch = "386" then "386"
    else arch
  let binaryName := "vstats-agent-" ++ osName ++ "-" ++ arch
  if osName = "windows" then binaryName ++ ".exe" else binaryName

/-- Lines 211-254 of `handleUpdateCommand`: the URL to download from, or `none`
when the function returns at line 244 ("already on latest version"), with the
calls made. -/
def resolveURL (pf : Platform) (sys : Sys) (downloadURL : String) (force : Bool) :
    Option String × List Effect :=
  let url := downloadURL
  if url = "" then
    let binaryName := binaryName pf
    let latestVersion := "latest"
    match fetchLatestGitHubVersion sys "zsai001" "vstats" with
    | (some latest, none, t) =>
      let latestVersion := latest
      let latestVersionClean := TrimPrefix latestVersion "v"
      let currentVersionClean := TrimPrefix pf.AgentVersion "v"
      if !force && latestVersionClean = currentVersionClean then
        (none, t)
      else
        (some ("https://github.com/zsai001/vstats/releases/download/" ++ latestVersion ++ "/"
          ++ binaryName), t)
    | (_, _, t) =>
      (some ("https://github.com/zsai001/vstats/releases/download/" ++ latestVersion ++ "/"
        ++ binaryName), t)
  else
    (some url, [])

/-- The argument list of the `systemd-run` restart command (line 306). -/
def systemdRunCmd : List String :=
  ["systemd-run", "--no-block", "systemctl", "restart", "vstats-agent"]

/-- The argument list of the fallback restart command (line 310). -/
def systemctlCmd : List String := ["systemctl", "restart", "vstats-agent"]

/-- The argument list of the Windows restart command (line 316). -/
def scCmd : List String :=
  ["cmd", "/C", "sc", "stop", "vstats-agent", "&&", "timeout", "/t", "2", "&&", "sc", "start",
    "vstats-agent"]

/-- Lines 303-318 of `handleUpdateCommand`: the restart request. -/
def requestRestart (pf : Platform) (sys : Sys) : List Effect :=
  if pf.GOOS = "linux" then
    match sys.startErr systemdRunCmd with
    | some _ => [Effect.start systemdRunCmd, Effect.start systemctlCmd]
    | none => [Effect.start systemdRunCmd]
  else if pf.GOOS = "windows" then
    [Effect.start scCmd]
  else
    []

/-- What a call of `handleUpdateCommand` leaves behind. -/
structure UpdateResult where
  fs : FileSystem
  trace : List Effect
  /-- Value `some c` when the call ended in `os.Exit(c)`, `none` when it returned. -/
  exit : Option Int

/-- Lines 281-324 of `handleUpdateCommand`: backup, install, restart.  The
argument `trace` holds the calls made so far. -/
def swapAndRestart (pf : Platform) (sys : Sys) (currentExe tempPath : String)
    (fs : FileSystem) (trace : List Effect) : UpdateResult :=
  let backupPath := currentExe ++ ".backup"
  match osRename sys currentExe backupPath fs with
  | (some _, fs1) =>
    { fs := (osRemove sys tempPath fs1).2,
      trace := trace ++ [Effect.rename currentExe backupPath, Effect.remove tempPath],
      exit := none }
  | (none, fs1) =>
    match osRename sys tempPath currentExe fs1 with
    | (some _, fs2) =>
      { fs := (osRename sys backupPath currentExe fs2).2,
        trace := trace ++ [Effect.rename currentExe backupPath, Effect.rename tempPath currentExe,
          Effect.rename backupPath currentExe],
        exit := none }
    | (none, fs2) =>
      { fs := (osRemove sys backupPath fs2).2,
        trace := trace ++ [Effect.rename currentExe backupPath, Effect.rename tempPath currentExe,
          Effect.remove backupPath] ++ requestRestart pf sys
          ++ [Effect.sleep (500 * 1000000), Effect.exit 0],
        exit := some 0 }

/-- Method `handleUpdateCommand(downloadURL, force)` (lines 196-325), run on the
file system `fs`. -/
def handleUpdateCommand (pf : Platform) (sys : Sys) (downloadURL : String) (force : Bool)
    (fs : FileSystem) : UpdateResult :=
  match sys.executable with
  | Except.error _ => { fs := fs, trace := [Effect.executable], exit := none }
  | Except.ok currentExe =>
    match resolveURL pf sys downloadURL force with
    | (none, t1) => { fs := fs, trace := Effect.executable :: t1, exit := none }
    | (some url, t1) =>
      let tempPath := currentExe ++ ".new"
      match downloadFile sys url tempPath fs with
      | (some _, fs1, t2) =>
        { fs := fs1, trace := Effect.executable :: (t1 ++ t2), exit := none }
      | (none, fs1, t2) =>
        if pf.GOOS ≠ "windows" then
          match osChmod sys tempPath fs1 with
          | (some _, fs2) =>
            { fs := (osRemove sys tempPath fs2).2,
              trace := Effect.executable :: (t1 ++ t2)
                ++ [Effect.chmod tempPath, Effect.remove tempPath],
              exit := none }
          | (none, fs2) =>
            swapAndRestart pf sys currentExe tempPath fs2
              (Effect.executable :: (t1 ++ t2) ++ [Effect.chmod tempPath])
        else
          swapAndRestart pf sys currentExe tempPath fs1 (Effect.executable :: (t1 ++ t2))

/-! ## One connection (`connectAndRun`) -/

/-- Modelled from the spec: the method `MetricsCollector.SetPingTargets` is not in
`websocket.go`.  The specification gives the collector "a mutable list of ping
targets", "mutated only via `SetPingTargets`", with "an atomic replace whole list
semantics" in which "replacing with an empty list clears all targets": the list
held after the call is the argument, whatever was held before. -/
def SetPingTargets (targets : List PingTargetConfig) (_held : List PingTargetConfig) :
    List PingTargetConfig :=
  targets

/-- The state the agent's goroutines act on: the collector's ping targets, the
files on disk, and the calls made so far. -/
structure Agent where
  targets : List PingTargetConfig
  fs : FileSystem
  trace : List Effect

/-- Outcomes of the calls `connectAndRun` makes before it starts streaming, and
the JSON decoder for inbound frames. -/
structure ConnEnv where
  /-- Error of `websocket.DefaultDialer.Dial`. -/
  dialErr : Option String
  /-- Error of `json.Marshal(authMsg)`. -/
  marshalAuthErr : Option String
  /-- Error of writing the auth frame. -/
  writeAuthErr : Option String
  /-- Message returned by the first `conn.ReadMessage()`. -/
  authMessage : String
  /-- Error returned by the first `conn.ReadMessage()`. -/
  authReadErr : Option String
  /-- Function `json.Unmarshal(message, &response)` for a `ServerResponse`. -/
  unmarshal : String → Except String ServerResponse

/-- One step of one of the two goroutines of a streaming connection. -/
inductive StreamEvent where
  /-- The sender takes `case <-metricsTicker.C`: `Collect` returns `metrics`,
  `json.Marshal` returns `marshalErr`, the write returns `writeErr`. -/
  | metricsTick (metrics : SystemMetrics) (marshalErr writeErr : Option String)
  /-- The sender takes `case <-pingTicker.C`; the write returns `writeErr`. -/
  | pingTick (writeErr : Option String)
  /-- The reader's `conn.ReadMessage()` returns `(message, err)`; `sys` answers the
  system calls of an update this frame may start. -/
  | read (message : String) (err : Option String) (sys : Sys)
  /-- The sender takes `case err := <-done`, if the channel holds a value. -/
  | done

/-- How a call of `connectAndRun` stands at the end of a schedule. -/
inductive Outcome where
  /-- It returned `err`. -/
  | returned (err : Option String)
  /-- The reader called `os.Exit(code)`. -/
  | exited (code : Int)
  /-- It is still in the sender's `select`. -/
  | blocked
  deriving DecidableEq, Repr

/-- Result of `connectAndRun` over a schedule. -/
structure ConnResult where
  outcome : Outcome
  agent : Agent

/-- The reader's `switch response.Type` (lines 141-162): the agent afterwards and
the exit code if the process was terminated. -/
def dispatch (pf : Platform) (sys : Sys) (response : ServerResponse) (a : Agent) :
    Agent × Option Int :=
  if response.Type_ = "error" then
    (a, none)
  else if response.Type_ = "command" then
    if response.Command = "update" then
      let r := handleUpdateCommand pf sys response.DownloadURL response.Force a.fs
      ({ a with
          fs := r.fs,
          trace := a.trace ++ [Effect.handleUpdate response.DownloadURL response.Force]
            ++ r.trace },
        r.exit)
    else
      (a, none)
  else if response.Type_ = "config" then
    if response.PingTargets.length > 0 then
      ({ a with
          targets := SetPingTargets response.PingTargets a.targets,
          trace := a.trace ++ [Effect.setPingTargets response.PingTargets] },
        none)
    else
      ({ a with
          targets := SetPingTargets [] a.targets,
          trace := a.trace ++ [Effect.setPingTargets []] },
        none)
  else
    (a, none)

/-- A streaming connection: the agent, and the content of the channel `done`
(`none` while the reader goroutine is running, `some err` once it has sent `err`
and returned). -/
structure StreamState where
  agent : Agent
  done : Option (Option String)

/-- One iteration of the reader goroutine's loop (lines 129-163), for a
`ReadMessage` that returned `(message, err)`. -/
def readerStep (pf : Platform) (unmarshal : String → Except String ServerResponse)
    (message : String) (err : Option String) (sys : Sys) (s : StreamState) :
    StreamState × Option Int :=
  match s.done with
  | some _ => (s, none)
  | none =>
    let a := { s.agent with trace := s.agent.trace ++ [Effect.readMessage] }
    match err with
    | some e => ({ agent := a, done := some (some e) }, none)
    | none =>
      match unmarshal message with
      | Except.error _ => ({ agent := a, done := none }, none)
      | Except.ok response =>
        let (a1, exit) := dispatch pf sys response a
        ({ agent := a1, done := none }, exit)

/-- The sender's `for { select { ... } }` (lines 166-193) interleaved with the
reader goroutine, over a schedule of steps. -/
def streamLoop (pf : Platform) (unmarshal : String → Except String ServerResponse) :
    StreamState → List StreamEvent → ConnResult
  | s, [] => { outcome := Outcome.blocked, agent := s.agent }
  | s, StreamEvent.metricsTick metrics marshalErr writeErr :: rest =>
    let a := { s.agent with trace := s.agent.trace ++ [Effect.collect] }
    match marshalErr with
    | some _ => streamLoop pf unmarshal { s with agent := a } rest
    | none =>
      let a1 := { a with trace := a.trace ++ [Effect.writeMetrics metrics] }
      match writeErr with
      | some e => { outcome := Outcome.returned (some ("failed to send metrics: " ++ e)), agent := a1 }
      | none => streamLoop pf unmarshal { s with agent := a1 } rest
  | s, StreamEvent.pingTick writeErr :: rest =>
    let a := { s.agent with trace := s.agent.trace ++ [Effect.writePing] }
    match writeErr with
    | some e => { outcome := Outcome.returned (some ("failed to send ping: " ++ e)), agent := a }
    | none => streamLoop pf unmarshal { s with agent := a } rest
  | s, StreamEvent.read message err sys :: rest =>
    match readerStep pf unmarshal message err sys s with
    | (s1, some code) => { outcome := Outcome.exited code, agent := s1.agent }
    | (s1, none) => streamLoop pf unmarshal s1 rest
  | s, StreamEvent.done :: rest =>
    match s.done with
    | some err => { outcome := Outcome.returned err, agent := s.agent }
    | none => streamLoop pf unmarshal s rest

/-- Method `connectAndRun()` (lines 61-194), started with the agent `a`, over a
schedule of the streaming phase.  The tickers of lines 119-123 are represented
only by the tick events of the schedule: `config.IntervalSecs` is not read, and
the panic of `time.NewTicker` for an interval that is not positive is outside
this definition (it would come after the handshake, and is not a return). -/
def connectAndRun (pf : Platform) (config : AgentConfig) (env : ConnEnv)
    (schedule : List StreamEvent) (a : Agent) : ConnResult :=
  let wsURL := config.WSUrl
  let a := { a with trace := a.trace ++ [Effect.dial wsURL] }
  match env.dialErr with
  | some e => { outcome := Outcome.returned (some ("failed to connect: " ++ e)), agent := a }
  | none =>
    let authMsg : AuthMessage :=
      { Type_ := "auth", ServerID := config.ServerID, Token := config.AgentToken,
        Version := pf.AgentVersion }
    match env.marshalAuthErr with
    | some e =>
      { outcome := Outcome.returned (some ("failed to serialize auth message: " ++ e)),
        agent := a }
    | none =>
      let a := { a with trace := a.trace ++ [Effect.writeAuth authMsg] }
      match env.writeAuthErr with
      | some e =>
        { outcome := Outcome.returned (some ("failed to send auth message: " ++ e)), agent := a }
      | none =>
        let a := { a with trace := a.trace ++ [Effect.readMessage] }
        match env.authReadErr with
        | some e =>
          { outcome := Outcome.returned (some ("failed to receive auth response: " ++ e)),
            agent := a }
        | none =>
          match env.unmarshal env.authMessage with
          | Except.error e =>
            { outcome := Outcome.returned (some ("failed to parse auth response: " ++ e)),
              agent := a }
          | Except.ok response =>
            if response.Status ≠ "ok" then
              { outcome := Outcome.returned (some ("authentication failed: " ++ response.Message)),
                agent := a }
            else
              let a :=
                if response.PingTargets.length > 0 then
                  { a with
                    targets := SetPingTargets response.PingTargets a.targets,
                    trace := a.trace ++ [Effect.setPingTargets response.PingTargets] }
                else a
              streamLoop pf env.unmarshal { agent := a, done := none } schedule

/-- Whether a call is an HTTP request (`http.Get` or `client.Do`). -/
def Effect.isRequest : Effect → Bool
  | Effect.httpGet _ => true
  | Effect.clientDo _ => true
  | _ => false

/-! ## Concrete inputs used to exercise the theorems -/

/-- A Linux build of version 1.2.0. -/
def linuxBuild : Platform := { GOOS := "linux", GOARCH := "amd64", AgentVersion := "1.2.0" }

/-- An agent configuration. -/
def sampleConfig : AgentConfig :=
  { WSUrl := "wss://collector.example/ws", ServerID := "srv-1", AgentToken := "secret",
    IntervalSecs := 2 }

/-- An agent with one ping target, an installed binary and no calls made yet. -/
def sampleAgent : Agent :=
  { targets := [{ Name := "old", Host := "8.8.8.8", Type_ := "icmp", Port := 0 }],
    fs := fun p => if p = "/opt/vstats/agent" then some "old-binary" else none,
    trace := [] }

/-- The auth response of the specification's example: a rejected token. -/
def badTokenFrame : String := "\x7b\"status\":\"fail\",\"message\":\"bad token\"\x7d"

/-- The frame `badTokenFrame` decoded. -/
def badTokenResponse : ServerResponse :=
  { Type_ := "", Status := "fail", Message := "bad token", Command := "", DownloadURL := "",
    Force := false, PingTargets := [] }

/-- A `config` frame carrying one ping target. -/
def configFrame : String :=
  "\x7b\"type\":\"config\",\"ping_targets\":[\x7b\"name\":\"a\",\"host\":\"1.1.1.1\"\x7d]\x7d"

/-- The frame `configFrame` decoded. -/
def configResponse : ServerResponse :=
  { Type_ := "config", Status := "", Message := "", Command := "", DownloadURL := "",
    Force := false, PingTargets := [{ Name := "a", Host := "1.1.1.1", Type_ := "", Port := 0 }] }

/-- A `command` frame whose command is not `update`. -/
def rebootFrame : String := "\x7b\"type\":\"command\",\"command\":\"reboot\"\x7d"

/-- The frame `rebootFrame` decoded. -/
def rebootResponse : ServerResponse :=
  { Type_ := "command", Status := "", Message := "", Command := "reboot", DownloadURL := "",
    Force := false, PingTargets := [] }

/-- A JSON decoder that knows the sample frames and rejects everything else. -/
def sampleUnmarshal (message : String) : Except String ServerResponse :=
  if message = badTokenFrame then Except.ok badTokenResponse
  else if message = configFrame then Except.ok configResponse
  else if message = rebootFrame then Except.ok rebootResponse
  else Except.error "invalid character"

/-- A connection on which every call succeeds and the server answers the auth
message with `badTokenFrame`. -/
def badTokenEnv : ConnEnv :=
  { dialErr := none, marshalAuthErr := none, writeAuthErr := none,
    authMessage := badTokenFrame, authReadErr := none, unmarshal := sampleUnmarshal }

/-- A system on which every call fails. -/
def failingSys : Sys :=
  { executable := Except.error "no executable",
    httpGet := fun _ => HttpResult.failed "connection refused",
    clientDo := fun _ => HttpResult.failed "connection refused",
    unmarshalTagName := fun _ => Except.error "unexpected end of JSON input",
    createErr := fun _ => some "permission denied",
    copyResult := fun _ _ => CopyResult.failed "" "unexpected EOF",
    chmodErr := fun _ => some "permission denied",
    renameErr := fun _ _ => some "permission denied",
    removeErr := fun _ => some "permission denied",
    startErr := fun _ => some "executable file not found" }

/-- A system on which every call succeeds: the binary is `/opt/vstats/agent`, the
release index answers with tag `v1.2.0`, every download returns `new-binary`. -/
def workingSys : Sys :=
  { executable := Except.ok "/opt/vstats/agent",
    httpGet := fun _ => HttpResult.response 200 "new-binary",
    clientDo := fun _ => HttpResult.response 200 "\x7b\"tag_name\":\"v1.2.0\"\x7d",
    unmarshalTagName := fun _ => Except.ok (some "v1.2.0"),
    createErr := fun _ => none,
    copyResult := fun _ _ => CopyResult.ok,
    chmodErr := fun _ => none,
    renameErr := fun _ _ => none,
    removeErr := fun _ => none,
    startErr := fun _ => none }

/-- The system `workingSys` with every download failing at the transport. -/
def noNetworkSys : Sys :=
  { workingSys with httpGet := fun _ => HttpResult.failed "connection refused" }

/-- The system `workingSys` with the body copy failing after three bytes and the
removal of the file failing too. -/
def brokenCopySys : Sys :=
  { workingSys with
    copyResult := fun _ _ => CopyResult.failed "new" "unexpected EOF",
    removeErr := fun _ => some "file in use" }

/-- The system `workingSys` with the body copy failing after three bytes. -/
def shortCopySys : Sys :=
  { workingSys with copyResult := fun _ _ => CopyResult.failed "new" "unexpected EOF" }

/-- A disk holding the installed binary and nothing else. -/
def cleanDisk : FileSystem :=
  fun p => if p = "/opt/vstats/agent" then some "old-binary" else none

/-- A disk holding the installed binary and a file left at the temporary path. -/
def staleDisk : FileSystem :=
  fun p =>
    if p = "/opt/vstats/agent" then some "old-binary"
    else if p = "/opt/vstats/agent.new" then some "stale"
    else none

/-- The closed form `min(5s * 2^i, 60s)`, against which the delays `Run` sleeps are
compared. -/
def expectedDelay (i : Nat) : Duration := min (5 * Second * 2 ^ i) (60 * Second)

/-! ## `Run` driving `connectAndRun` -/

/-- The loop of `Run` with `connectAndRun` called for real: each element of
`attempts` gives the environment and the schedule of one connection.  A call that
ends the process, or that is still streaming when its schedule ends, never
returns, and `Run` does nothing further. -/
def runConnections (pf : Platform) (config : AgentConfig) :
    Duration → List (ConnEnv × List StreamEvent) → Agent → List RunEvent
  | _, [], _ => []
  | reconnectDelay, (env, schedule) :: rest, a =>
    match (connectAndRun pf config env schedule a).outcome with
    | Outcome.returned err =>
      let d := delayAfterAttempt reconnectDelay err
      RunEvent.attempt err :: RunEvent.sleep d
        :: runConnections pf config (backoff d) rest (connectAndRun pf config env schedule a).agent
    | _ => []

/-! ## Memory modules on Windows (`cmd/agent/memory.go`) -/

/-- Struct `MemoryModule`. -/
structure MemoryModule where
  Slot : String
  Size : Nat
  MemType : String
  Speed : Nat
  Manufacturer : String
  deriving DecidableEq, Repr

/-- Function `strings.Split(s, sep)` for a one-character separator, on the
characters of `s`. -/
def splitChars (sep : Char) : List Char → List (List Char)
  | [] => [[]]
  | c :: cs =>
    if c = sep then [] :: splitChars sep cs
    else
      match splitChars sep cs with
      | [] => [[c]]
      | p :: ps => (c :: p) :: ps

/-- Function `strings.Split(s, ",")`. -/
def Split (s : String) (sep : Char) : List String :=
  (splitChars sep s.data).map String.mk

/-- Function `unicode.IsSpace`. -/
def isSpace (c : Char) : Bool :=
  c.toNat ∈ [0x09, 0x0A, 0x0B, 0x0C, 0x0D, 0x20, 0x85, 0xA0, 0x1680, 0x2028, 0x2029, 0x202F,
    0x205F, 0x3000]
  || (0x2000 ≤ c.toNat && c.toNat ≤ 0x200A)

/-- Function `strings.TrimSpace(s)`. -/
def TrimSpace (s : String) : String :=
  String.mk ((s.data.dropWhile isSpace).reverse.dropWhile isSpace).reverse

/-- The value of a string of decimal digits read after the value `acc`, or `none`
if a character is not a digit. -/
def parseDigits : Nat → List Char → Option Nat
  | acc, [] => some acc
  | acc, c :: cs =>
    if 48 ≤ c.toNat ∧ c.toNat ≤ 57 then parseDigits (acc * 10 + (c.toNat - 48)) cs else none

/-- Function `strconv.ParseUint(s, 10, bitSize)`: the value when the returned error
is nil, `none` otherwise (empty string, a character that is not a digit, or a
value that does not fit `bitSize` bits). -/
def ParseUint (s : String) (bitSize : Nat) : Option Nat :=
  match s.data with
  | [] => none
  | cs =>
    match parseDigits 0 cs with
    | none => none
    | some n => if n < 2 ^ bitSize then some n else none

/-- The index expression `parts[i]`: the element, or the run-time panic
"index out of range". -/
def index (parts : List String) (i : Nat) : Except String String :=
  match parts[i]? with
  | some p => Except.ok p
  | none =>
    Except.error ("index out of range [" ++ toString i ++ "] with length "
      ++ toString parts.length)

/-- The `switch memTypeCode` of lines 159-170. -/
def memTypeName (memTypeCode : Nat) (old : String) : String :=
  if memTypeCode = 20 then "DDR"
  else if memTypeCode = 21 then "DDR2"
  else if memTypeCode = 24 then "DDR3"
  else if memTypeCode = 26 then "DDR4"
  else if memTypeCode = 34 then "DDR5"
  else old

/-- Lines 148-180 of `collectMemoryModules`: the parse of one line of WMIC
output after the header.  The result is the module to append, if any, or the
panic of an index expression. -/
def parseWmicLine (line : String) : Except String (Option MemoryModule) :=
  let parts := Split line ','
  if parts.length ≥ 5 then do
    let p1 ← index parts 1
    match ParseUint (TrimSpace p1) 64 with
    | none => pure none
    | some size =>
      if size > 0 then do
        let memModule : MemoryModule :=
          { Slot := "", Size := size, MemType := "", Speed := 0, Manufacturer := "" }
        let p2 ← index parts 2
        let slot := TrimSpace p2
        let memModule := if slot ≠ "" then { memModule with Slot := slot } else memModule
        let p3 ← index parts 3
        let memModule :=
          match ParseUint (TrimSpace p3) 32 with
          | some memTypeCode =>
            { memModule with MemType := memTypeName memTypeCode memModule.MemType }
          | none => memModule
        let p4 ← index parts 4
        let memModule :=
          match ParseUint (TrimSpace p4) 32 with
          | some speed => { memModule with Speed := speed % 2 ^ 32 }
          | none => memModule
        let p5 ← index parts 5
        let manufacturer := TrimSpace p5
        let memModule :=
          if manufacturer ≠ "" then { memModule with Manufacturer := manufacturer }
          else memModule
        pure (some memModule)
      else pure none
  else pure none

/-- The scanner loop of the Windows branch (lines 142-181) over the lines of the
WMIC output: the modules collected, or the panic that ended the loop. -/
def collectWmicLines : List MemoryModule → List String → Except String (List MemoryModule)
  | modules, [] => Except.ok modules
  | modules, line :: rest =>
    match parseWmicLine line with
    | Except.error e => Except.error e
    | Except.ok none => collectWmicLines modules rest
    | Except.ok (some m) => collectWmicLines (modules ++ [m]) rest

/-- The Windows branch of `collectMemoryModules` once `cmd.Output()` has returned
the given lines without error: the first line is skipped.  The argument is the
list of lines `scanner.Scan` delivers; the scanner stopping at a line longer than
its 64 KiB buffer (`scanner.Err()` is never checked) is outside this definition. -/
def collectMemoryModulesWindows (lines : List String) : Except String (List MemoryModule) :=
  collectWmicLines [] lines.tail

/-! ## Admin user handlers (`internal/cloud/handlers/users.go`) -/

/-- Function `strconv.Atoi(s)` on a 64-bit platform, with its error dropped as
the handlers do: an optional sign and decimal digits give the value, clamped to
the range of `int` when it does not fit; anything else gives 0. -/
def Atoi (s : String) : Int :=
  let clamp (v : Int) : Int :=
    if v > 9223372036854775807 then 9223372036854775807
    else if v < -9223372036854775808 then -9223372036854775808
    else v
  match s.data with
  | [] => 0
  | c :: cs =>
    if c = '-' then
      match cs with
      | [] => 0
      | _ => match parseDigits 0 cs with
        | some n => clamp (-(n : Int))
        | none => 0
    else if c = '+' then
      match cs with
      | [] => 0
      | _ => match parseDigits 0 cs with
        | some n => clamp (n : Int)
        | none => 0
    else
      match parseDigits 0 (c :: cs) with
      | some n => clamp (n : Int)
      | none => 0

/-- Method `c.DefaultQuery(key, defaultValue)` for a query value that is present
(`some v`) or absent. -/
def DefaultQuery (value : Option String) (defaultValue : String) : String :=
  match value with
  | some v => v
  | none => defaultValue

/-- The map `adminUsers`, as a lookup: absent keys give `false`. -/
def adminUsers (username : String) : Bool :=
  username = "zsai001"

/-- Function `IsAdmin(c)`; `username` is `middleware.GetUsername(c)`. -/
def IsAdmin (username : String) : Bool :=
  adminUsers username

/-- Lines 48-59 of `ListUsers`: `page`, `pageSize` and `offset`, all of Go type
`int` (64 bits). -/
def listUsersPaging (pageQuery pageSizeQuery : Option String) : Int × Int × Int :=
  let page := Atoi (DefaultQuery pageQuery "1")
  let pageSize := Atoi (DefaultQuery pageSizeQuery "20")
  let page := if page < 1 then 1 else page
  let pageSize := if pageSize < 1 ∨ pageSize > 100 then 20 else pageSize
  let offset := wrapInt64 (wrapInt64 (page - 1) * pageSize)
  (page, pageSize, offset)

/-- Line 72 of `ListUsers`: `(total + pageSize - 1) / pageSize` on `int`. -/
def totalPages (total pageSize : Int) : Int :=
  Int.tdiv (wrapInt64 (wrapInt64 (total + pageSize) - 1)) pageSize

/-- The functions of package `database` the handlers call, over a database state
`σ` and a user record `υ`; the package is outside the sources at hand, so its
functions are parameters.  An `Option String` is the returned `error`. -/
structure Database (σ υ : Type) where
  /-- Function `ListAllUsers(ctx, pageSize, offset, search)`. -/
  ListAllUsers : Int → Int → String → σ → List υ × Int × Option String
  /-- Function `UpdateUserPlan(ctx, userID, plan)`. -/
  UpdateUserPlan : String → String → σ → Option String × σ
  /-- Function `UpdateUserStatus(ctx, userID, status)`. -/
  UpdateUserStatus : String → String → σ → Option String × σ
  /-- Function `GetUserByID(ctx, userID)`. -/
  GetUserByID : String → σ → Except String υ

/-- A call into package `database`. -/
inductive DbCall where
  | ListAllUsers (pageSize offset : Int) (search : String)
  | UpdateUserPlan (userID plan : String)
  | UpdateUserStatus (userID status : String)
  | GetUserByID (userID : String)
  deriving DecidableEq, Repr

/-- What a handler writes with `c.JSON`. -/
inductive Reply (υ : Type) where
  /-- Status `status` with body `gin.H{"error": message}`. -/
  | error (status : Nat) (message : String)
  /-- Status 200 with the body of `ListUsers`. -/
  | users (users : List υ) (total page pageSize totalPages : Int)
  /-- Status 200 with body `gin.H{"user": user, "message": message}`. -/
  | user (user : υ) (message : String)
  deriving DecidableEq, Repr

/-- The HTTP status of a reply. -/
def Reply.status {υ : Type} : Reply υ → Nat
  | Reply.error status _ => status
  | Reply.users _ _ _ _ _ => 200
  | Reply.user _ _ => 200

/-- Handler `ListUsers` (lines 41-74): the reply and the database calls made. -/
def ListUsers {σ υ : Type} (db : Database σ υ) (username : String)
    (pageQuery pageSizeQuery : Option String) (search : String) (st : σ) :
    Reply υ × List DbCall :=
  if !IsAdmin username then
    (Reply.error 403 "Admin access required", [])
  else
    match listUsersPaging pageQuery pageSizeQuery with
    | (page, pageSize, offset) =>
      match db.ListAllUsers pageSize offset search st with
      | (_, _, some _) =>
        (Reply.error 500 "Failed to fetch users", [DbCall.ListAllUsers pageSize offset search])
      | (users, total, none) =>
        (Reply.users users total page pageSize (totalPages total pageSize),
          [DbCall.ListAllUsers pageSize offset search])

/-- Struct `UpdateUserRequest`; an absent member is the empty string. -/
structure UpdateUserRequest where
  Plan : String
  Status : String
  deriving DecidableEq, Repr

/-- The map `validPlans` of `UpdateUser`, as a lookup. -/
def validPlans (plan : String) : Bool :=
  plan = "free" || plan = "pro" || plan = "enterprise"

/-- The map `validStatuses` of `UpdateUser`, as a lookup. -/
def validStatuses (status : String) : Bool :=
  status = "active" || status = "suspended"

/-- Lines 128-148 of `UpdateUser`: the status update and the final fetch, with
the database calls made so far in `calls`. -/
def updateUserStatusStage {σ υ : Type} (db : Database σ υ) (userID : String)
    (req : UpdateUserRequest) (st : σ) (calls : List DbCall) : Reply υ × σ × List DbCall :=
  let fetch (st : σ) (calls : List DbCall) : Reply υ × σ × List DbCall :=
    match db.GetUserByID userID st with
    | Except.error _ => (Reply.error 404 "User not found", st, calls ++ [DbCall.GetUserByID userID])
    | Except.ok user =>
      (Reply.user user "User updated successfully", st, calls ++ [DbCall.GetUserByID userID])
  if req.Status ≠ "" then
    if !validStatuses req.Status then
      (Reply.error 400 "Invalid status. Must be 'active' or 'suspended'", st, calls)
    else
      match db.UpdateUserStatus userID req.Status st with
      | (some _, st1) =>
        (Reply.error 500 "Failed to update user status", st1,
          calls ++ [DbCall.UpdateUserStatus userID req.Status])
      | (none, st1) => fetch st1 (calls ++ [DbCall.UpdateUserStatus userID req.Status])
  else
    fetch st calls

/-- Handler `UpdateUser` (lines 100-149): the reply, the database afterwards and
the database calls made.  The argument `body` is the request decoded by
`c.ShouldBindJSON`, or `none` when that returned an error. -/
def UpdateUser {σ υ : Type} (db : Database σ υ) (username userID : String)
    (body : Option UpdateUserRequest) (st : σ) : Reply υ × σ × List DbCall :=
  if !IsAdmin username then
    (Reply.error 403 "Admin access required", st, [])
  else
    match body with
    | none => (Reply.error 400 "Invalid request body", st, [])
    | some req =>
      if req.Plan ≠ "" then
        if !validPlans req.Plan then
          (Reply.error 400 "Invalid plan. Must be 'free', 'pro', or 'enterprise'", st, [])
        else
          match db.UpdateUserPlan userID req.Plan st with
          | (some _, st1) =>
            (Reply.error 500 "Failed to update user plan", st1,
              [DbCall.UpdateUserPlan userID req.Plan])
          | (none, st1) =>
            updateUserStatusStage db userID req st1 [DbCall.UpdateUserPlan userID req.Plan]
      else
        updateUserStatusStage db userID req st []

/-- A user record for the sample database. -/
structure SampleUser where
  ID : String
  Plan : String
  Status : String
  deriving DecidableEq, Repr

/-- A sample database: a list of users held in memory, on which every call
succeeds and the two updates overwrite the field of the user with the given ID. -/
def sampleDatabase : Database (List SampleUser) SampleUser :=
  { ListAllUsers := fun _ _ _ st => (st, st.length, none),
    UpdateUserPlan := fun userID plan st =>
      (none, st.map (fun u => if u.ID = userID then { u with Plan := plan } else u)),
    UpdateUserStatus := fun userID status st =>
      (none, st.map (fun u => if u.ID = userID then { u with Status := status } else u)),
    GetUserByID := fun userID st =>
      match st.find? (fun u => u.ID = userID) with
      | some u => Except.ok u
      | none => Except.error "user not found" }

/-- One user on the free plan. -/
def sampleUsers : List SampleUser := [{ ID := "u1", Plan := "free", Status := "active" }]

/-! ## Stage outcomes of the self-updater -/

/-- The files on disk when the Backup stage starts: what `downloadFile` left
(`os.Chmod` changes no content). -/
@[reducible]
def fsAtBackup (sys : Sys) (url currentExe : String) (fs : FileSystem) : FileSystem :=
  (downloadFile sys url (currentExe ++ ".new") fs).2.1

/-- The update reaches the Backup stage with `currentExe` and `url`: the path
lookup succeeded, a URL was resolved (no skip), `downloadFile` returned nil and,
off Windows, `os.Chmod` returned nil. -/
@[reducible]
def ReachesBackup (pf : Platform) (sys : Sys) (downloadURL : String) (force : Bool)
    (fs : FileSystem) (currentExe url : String) : Prop :=
  sys.executable = Except.ok currentExe
  ∧ (resolveURL pf sys downloadURL force).1 = some url
  ∧ (downloadFile sys url (currentExe ++ ".new") fs).1 = none
  ∧ (pf.GOOS ≠ "windows" →
      (osChmod sys (currentExe ++ ".new") (fsAtBackup sys url currentExe fs)).1 = none)

/-- The Backup rename `os.Rename(currentExe, backupPath)` returned nil. -/
@[reducible]
def BackupSucceeds (sys : Sys) (url currentExe : String) (fs : FileSystem) : Prop :=
  (osRename sys currentExe (currentExe ++ ".backup") (fsAtBackup sys url currentExe fs)).1 = none

/-- The Install rename `os.Rename(tempPath, currentExe)`, run on the files the
Backup rename left, returned nil. -/
@[reducible]
def InstallSucceeds (sys : Sys) (url currentExe : String) (fs : FileSystem) : Prop :=
  (osRename sys (currentExe ++ ".new") currentExe
    (osRename sys currentExe (currentExe ++ ".backup")
      (fsAtBackup sys url currentExe fs)).2).1 = none

/-- Every stage through Install succeeded. -/
def AllStagesSucceed (pf : Platform) (sys : Sys) (downloadURL : String) (force : Bool)
    (fs : FileSystem) : Prop :=
  ∃ currentExe url, ReachesBackup pf sys downloadURL force fs currentExe url
    ∧ BackupSucceeds sys url currentExe fs ∧ InstallSucceeds sys url currentExe fs

/-- Whether a call belongs to the restart: starting a command, the pause, the
exit. -/
def Effect.isRestart : Effect → Bool
  | Effect.start _ => true
  | Effect.sleep _ => true
  | Effect.exit _ => true
  | _ => false

/-- The system `workingSys` on which no file can be renamed onto the binary: the
Install rename fails, and so does the rename that would restore the backup. -/
def busyBinarySys : Sys :=
  { workingSys with
    renameErr := fun _ dst => if dst = "/opt/vstats/agent" then some "text file busy" else none }

/-- The system `workingSys` on which the Install rename fails and every other
rename succeeds. -/
def installFailsSys : Sys :=
  { workingSys with
    renameErr := fun src _ =>
      if src = "/opt/vstats/agent.new" then some "permission denied" else none }

/-- The system `workingSys` on which the Backup rename fails. -/
def backupFailsSys : Sys :=
  { workingSys with
    renameErr := fun _ dst =>
      if dst = "/opt/vstats/agent.backup" then some "permission denied" else none }

/-- The system `workingSys` on which the Backup rename fails and no file can be
removed. -/
def backupAndRemoveFailSys : Sys :=
  { workingSys with
    renameErr := fun _ dst =>
      if dst = "/opt/vstats/agent.backup" then some "permission denied" else none,
    removeErr := fun _ => some "file in use" }

/-- The system `workingSys` with the release index unreachable. -/
def noIndexSys : Sys :=
  { workingSys with clientDo := fun _ => HttpResult.failed "connection refused" }

/-- An auth response that accepts the agent. -/
def okFrame : String := "\x7b\"type\":\"auth\",\"status\":\"ok\"\x7d"

/-- The frame `okFrame` decoded. -/
def okResponse : ServerResponse :=
  { Type_ := "auth", Status := "ok", Message := "", Command := "", DownloadURL := "",
    Force := false, PingTargets := [] }

/-- A connection on which every call succeeds and the server accepts the agent. -/
def okEnv : ConnEnv :=
  { dialErr := none, marshalAuthErr := none, writeAuthErr := none,
    authMessage := okFrame, authReadErr := none,
    unmarshal := fun m => if m = okFrame then Except.ok okResponse else sampleUnmarshal m }

/-- A metrics snapshot. -/
def sampleMetrics : SystemMetrics := { Hostname := "h", Uptime := 1, Version := "1.2.0" }

/-! ## Theorems: the reconnect loop -/

theorem wrapInt64_of_inRange (x : Int) (hlo : -9223372036854775808 ≤ x)
    (hhi : x < 9223372036854775808) : wrapInt64 x = x := by
  unfold wrapInt64
  rw [Int.emod_eq_of_lt (by omega) (by omega)]
  omega

theorem backoff_of_inRange (d : Duration) (hlo : 0 ≤ d) (hhi : d ≤ MaxReconnectDelay) :
    backoff d = min (d * 2) MaxReconnectDelay := by
  unfold MaxReconnectDelay Second at hhi
  have hw : wrapInt64 (d * 2) = d * 2 :=
    wrapInt64_of_inRange (d * 2) (by simp only [Duration] at *; omega)
      (by simp only [Duration] at *; omega)
  unfold backoff
  simp only [hw, min_def]
  split_ifs <;> simp only [Duration] at * <;> omega

theorem backoff_expectedDelay (i : Nat) : backoff (expectedDelay i) = expectedDelay (i + 1) := by
  have hpos : (0 : Int) < 2 ^ i := by positivity
  have hsucc : (2 : Int) ^ (i + 1) = 2 * 2 ^ i := by ring
  have hlo : (0 : Int) ≤ expectedDelay i := by
    unfold expectedDelay Second
    exact le_min (by positivity) (by norm_num)
  have hhi : expectedDelay i ≤ MaxReconnectDelay := min_le_right _ _
  rw [backoff_of_inRange _ hlo hhi]
  unfold expectedDelay MaxReconnectDelay Second
  rw [hsucc]
  generalize (2 : Int) ^ i = p at hpos
  simp only [min_def]
  split_ifs <;> simp only [Duration] at * <;> omega

theorem sleeps_runLoop_failures (results : List (Option String)) :
    ∀ i : Nat, (∀ r ∈ results, r ≠ none) →
      sleeps (runLoop (expectedDelay i) results)
        = (List.range results.length).map (fun j => expectedDelay (i + j)) := by
  induction results with
  | nil => intro i _; simp [runLoop, sleeps]
  | cons r rest ih =>
    intro i h
    have hr : r ≠ none := h r (List.mem_cons_self _ _)
    have hrest : ∀ x ∈ rest, x ≠ none := fun x hx => h x (List.mem_cons_of_mem _ hx)
    obtain ⟨e, rfl⟩ := Option.ne_none_iff_exists'.mp hr
    simp only [runLoop, sleeps, delayAfterAttempt, List.length_cons]
    rw [backoff_expectedDelay, ih (i + 1) hrest, List.range_succ_eq_map]
    simp only [List.map_cons, List.map_map, Nat.add_zero]
    congr 1
    apply List.map_congr_left
    intro j _
    simp [Function.comp, Nat.add_assoc, Nat.add_comm 1 j]

theorem expectedDelay_mono {i j : Nat} (h : i ≤ j) : expectedDelay i ≤ expectedDelay j := by
  unfold expectedDelay
  have : (2 : Int) ^ i ≤ 2 ^ j := pow_le_pow_right₀ (by norm_num) h
  have h5 : (0 : Int) ≤ 5 * Second := by unfold Second; norm_num
  have := mul_le_mul_of_nonneg_left this h5
  exact min_le_min this le_rfl

theorem expectedDelay_le_max (i : Nat) : expectedDelay i ≤ MaxReconnectDelay := by
  unfold expectedDelay MaxReconnectDelay
  exact min_le_right _ _

theorem sleeps_Run_failures (results : List (Option String)) (h : ∀ r ∈ results, r ≠ none) :
    sleeps (Run results) = (List.range results.length).map expectedDelay := by
  have h0 : InitialReconnectDelay = expectedDelay 0 := by
    unfold InitialReconnectDelay expectedDelay Second; norm_num
  unfold Run
  rw [h0, sleeps_runLoop_failures results 0 h]
  simp

/-- C1: over a run of consecutive failed attempts from the initial state, `Run`
sleeps once per failure, the sleep after the k-th failure is
`min(5s * 2^(k-1), 60s)`, the slept delays are non-decreasing, and none exceeds
`MaxReconnectDelay`. -/
theorem Run_backoff_sequence (results : List (Option String))
    (hfail : ∀ r ∈ results, r ≠ none) :
    (sleeps (Run results)).length = results.length
    ∧ (∀ k : Nat, 1 ≤ k → k ≤ results.length →
        (sleeps (Run results))[k - 1]? = some (min (5 * Second * 2 ^ (k - 1)) (60 * Second)))
    ∧ List.Pairwise (fun a b => a ≤ b) (sleeps (Run results))
    ∧ (∀ d ∈ sleeps (Run results), d ≤ MaxReconnectDelay) := by
  rw [sleeps_Run_failures results hfail]
  refine ⟨by simp, ?_, ?_, ?_⟩
  · intro k hk1 hk2
    have hlt : k - 1 < results.length := by omega
    simp [List.getElem?_map, List.getElem?_range hlt, expectedDelay]
  · rw [List.pairwise_map]
    refine List.Pairwise.imp ?_ (List.pairwise_lt_range _)
    intro a b hab
    exact expectedDelay_mono (Nat.le_of_lt hab)
  · intro d hd
    obtain ⟨i, _, rfl⟩ := List.mem_map.mp hd
    exact expectedDelay_le_max i

/-- C1 at seven failures: the slept delays are 5, 10, 20, 40, 60, 60, 60 seconds. -/
theorem Run_backoff_sequence_witness :
    sleeps (Run [some "e1", some "e2", some "e3", some "e4", some "e5", some "e6", some "e7"])
      = [5 * Second, 10 * Second, 20 * Second, 40 * Second, 60 * Second, 60 * Second,
          60 * Second]
    ∧ (sleeps (Run [some "e1", some "e2", some "e3", some "e4", some "e5", some "e6",
        some "e7"]))[6 - 1]? = some (min (5 * Second * 2 ^ (6 - 1)) (60 * Second)) :=
  ⟨by decide,
    (Run_backoff_sequence
      [some "e1", some "e2", some "e3", some "e4", some "e5", some "e6", some "e7"]
      (by decide)).2.1 6 (by decide) (by decide)⟩

theorem runLoop_append (history later : List (Option String)) :
    ∀ d : Duration, runLoop d (history ++ later)
      = runLoop d history ++ runLoop (delayAfter d history) later := by
  induction history with
  | nil => intro d; simp [runLoop, delayAfter]
  | cons r rest ih => intro d; simp [runLoop, delayAfter, ih]

/-- C2: whatever the earlier results of `connectAndRun` were and whatever value
`reconnectDelay` started from, an attempt that returns nil is followed by a sleep
of `InitialReconnectDelay`; the same holds for `Run`, which starts from
`InitialReconnectDelay`. -/
theorem Run_nil_resets_delay (d : Duration) (history later : List (Option String)) :
    runLoop d (history ++ none :: later)
        = runLoop d history ++ RunEvent.attempt none :: RunEvent.sleep InitialReconnectDelay
            :: runLoop (backoff InitialReconnectDelay) later
    ∧ Run (history ++ none :: later)
        = Run history ++ RunEvent.attempt none :: RunEvent.sleep InitialReconnectDelay
            :: runLoop (backoff InitialReconnectDelay) later
    ∧ InitialReconnectDelay = 5 * Second := by
  refine ⟨?_, ?_, rfl⟩
  · rw [runLoop_append]; simp [runLoop, delayAfterAttempt]
  · unfold Run; rw [runLoop_append]; simp [runLoop, delayAfterAttempt]

/-- C3, as stated, fails: after an attempt that returned nil, `Run` sleeps (five
seconds) before the next attempt starts. -/
theorem Run_sleeps_after_nil :
    Run [none, none]
      = [RunEvent.attempt none, RunEvent.sleep (5 * Second),
         RunEvent.attempt none, RunEvent.sleep (5 * Second)] := by
  decide

theorem runLoop_attempt_then_sleep (results : List (Option String)) :
    ∀ (d : Duration) (i : Nat) (err : Option String),
      (runLoop d results)[i]? = some (RunEvent.attempt err) →
      ∃ s : Duration, (runLoop d results)[i + 1]? = some (RunEvent.sleep s)
        ∧ (err = none → s = InitialReconnectDelay) := by
  induction results with
  | nil => intro d i err h; simp [runLoop] at h
  | cons r rest ih =>
    intro d i err h
    match i with
    | 0 =>
      simp only [runLoop, List.getElem?_cons_zero, Option.some.injEq,
        RunEvent.attempt.injEq] at h
      subst h
      refine ⟨delayAfterAttempt d r, by simp [runLoop], ?_⟩
      intro hr
      subst hr
      rfl
    | 1 => simp [runLoop] at h
    | j + 2 =>
      simp only [runLoop, List.getElem?_cons_succ] at h ⊢
      exact ih _ j err h

/-- C3, amended: in `Run` every attempt, whether it returned an error or nil, is
directly followed by a sleep, and the sleep that follows an attempt that returned
nil is `InitialReconnectDelay`. -/
theorem Run_sleeps_after_every_attempt (results : List (Option String)) (i : Nat)
    (err : Option String) (h : (Run results)[i]? = some (RunEvent.attempt err)) :
    ∃ s : Duration, (Run results)[i + 1]? = some (RunEvent.sleep s)
      ∧ (err = none → s = InitialReconnectDelay) :=
  runLoop_attempt_then_sleep results InitialReconnectDelay i err h

/-- C3 amended, at two failures followed by a nil return. -/
theorem Run_sleeps_after_every_attempt_witness :
    (Run [some "e1", some "e2", none])[4]? = some (RunEvent.attempt none)
    ∧ ∃ s : Duration, (Run [some "e1", some "e2", none])[4 + 1]? = some (RunEvent.sleep s)
        ∧ ((none : Option String) = none → s = InitialReconnectDelay) :=
  ⟨by decide, Run_sleeps_after_every_attempt [some "e1", some "e2", none] 4 none (by decide)⟩

/-! ## Theorems: the auth handshake and the reader's dispatcher -/

/-- C4: when the auth response decodes to a `ServerResponse` whose `Status` is not
`"ok"`, `connectAndRun` returns a non-nil error whose text contains the
response's `Message`; the collector's ping targets are untouched, and the only
calls made on that connection are the dial, the auth write and the one read, so
`SetPingTargets` and `Collect` are not called and no metrics frame is written,
whatever the schedule of timer ticks and inbound frames. -/
theorem connectAndRun_auth_rejected (pf : Platform) (config : AgentConfig) (env : ConnEnv)
    (schedule : List StreamEvent) (a : Agent) (response : ServerResponse)
    (hdial : env.dialErr = none) (hmarshal : env.marshalAuthErr = none)
    (hwrite : env.writeAuthErr = none) (hread : env.authReadErr = none)
    (hparse : env.unmarshal env.authMessage = Except.ok response)
    (hstatus : response.Status ≠ "ok") :
    (∃ text : String,
        (connectAndRun pf config env schedule a).outcome = Outcome.returned (some text)
        ∧ ∃ before after : String, text = before ++ response.Message ++ after)
    ∧ (connectAndRun pf config env schedule a).agent.targets = a.targets
    ∧ (∃ calls : List Effect,
        (connectAndRun pf config env schedule a).agent.trace = a.trace ++ calls
        ∧ (∀ targets, Effect.setPingTargets targets ∉ calls)
        ∧ Effect.collect ∉ calls
        ∧ (∀ metrics, Effect.writeMetrics metrics ∉ calls)) := by
  refine ⟨⟨"authentication failed: " ++ response.Message, ?_, "authentication failed: ", "", ?_⟩,
    ?_, ⟨[Effect.dial config.WSUrl,
          Effect.writeAuth (AuthMessage.mk "auth" config.ServerID config.AgentToken pf.AgentVersion),
          Effect.readMessage], ?_, ?_, ?_, ?_⟩⟩
  · simp [connectAndRun, hdial, hmarshal, hwrite, hread, hparse, hstatus]
  · simp
  · simp [connectAndRun, hdial, hmarshal, hwrite, hread, hparse, hstatus]
  · simp [connectAndRun, hdial, hmarshal, hwrite, hread, hparse, hstatus]
  · intro targets; simp
  · simp
  · intro metrics; simp

/-- C4 on the specification's example: the attempt fails with a text containing
"bad token" and nothing is collected or sent, although a metrics tick is due. -/
theorem connectAndRun_auth_rejected_witness :
    (connectAndRun linuxBuild sampleConfig badTokenEnv
        [StreamEvent.metricsTick { Hostname := "h", Uptime := 1, Version := "1.2.0" } none none]
        sampleAgent).outcome
      = Outcome.returned (some "authentication failed: bad token")
    ∧ ((∃ text : String,
        (connectAndRun linuxBuild sampleConfig badTokenEnv
          [StreamEvent.metricsTick { Hostname := "h", Uptime := 1, Version := "1.2.0" } none none]
          sampleAgent).outcome = Outcome.returned (some text)
        ∧ ∃ before after : String, text = before ++ badTokenResponse.Message ++ after)
      ∧ (connectAndRun linuxBuild sampleConfig badTokenEnv
          [StreamEvent.metricsTick { Hostname := "h", Uptime := 1, Version := "1.2.0" } none none]
          sampleAgent).agent.targets = sampleAgent.targets
      ∧ (∃ calls : List Effect,
          (connectAndRun linuxBuild sampleConfig badTokenEnv
            [StreamEvent.metricsTick { Hostname := "h", Uptime := 1, Version := "1.2.0" } none
              none]
            sampleAgent).agent.trace = sampleAgent.trace ++ calls
          ∧ (∀ targets, Effect.setPingTargets targets ∉ calls)
          ∧ Effect.collect ∉ calls
          ∧ (∀ metrics, Effect.writeMetrics metrics ∉ calls))) :=
  ⟨by decide,
    connectAndRun_auth_rejected linuxBuild sampleConfig badTokenEnv _ sampleAgent badTokenResponse
      rfl rfl rfl rfl rfl (by decide)⟩

theorem dispatch_config (pf : Platform) (sys : Sys) (response : ServerResponse) (a : Agent)
    (htype : response.Type_ = "config") :
    dispatch pf sys response a
      = ({ a with
            targets := response.PingTargets,
            trace := a.trace ++ [Effect.setPingTargets response.PingTargets] }, none) := by
  have h1 : response.Type_ ≠ "error" := by rw [htype]; decide
  have h2 : response.Type_ ≠ "command" := by rw [htype]; decide
  unfold dispatch
  rw [if_neg h1, if_neg h2, if_pos htype]
  by_cases hlen : response.PingTargets.length > 0
  · rw [if_pos hlen]; rfl
  · rw [if_neg hlen]
    have hnil : response.PingTargets = [] := by
      cases hl : response.PingTargets with
      | nil => rfl
      | cons x xs => rw [hl] at hlen; simp at hlen
    rw [hnil]; rfl

/-- C5: when the reader decodes a frame of type `config`, whatever list the
collector held, the dispatcher calls `SetPingTargets` exactly once, with the
frame's list if that is non-empty and with the empty list otherwise; afterwards
the collector holds exactly the frame's list, in the same order, when it is
non-empty, and the empty list when it is empty or absent. -/
theorem readerStep_config (pf : Platform) (unmarshal : String → Except String ServerResponse)
    (message : String) (sys : Sys) (s : StreamState) (response : ServerResponse)
    (hrunning : s.done = none) (hdecode : unmarshal message = Except.ok response)
    (htype : response.Type_ = "config") :
    (response.PingTargets ≠ [] →
        (readerStep pf unmarshal message none sys s).1.agent.targets = response.PingTargets)
    ∧ (response.PingTargets = [] →
        (readerStep pf unmarshal message none sys s).1.agent.targets = [])
    ∧ (readerStep pf unmarshal message none sys s).1.agent.trace
        = s.agent.trace ++ [Effect.readMessage, Effect.setPingTargets response.PingTargets] := by
  have hstep : (readerStep pf unmarshal message none sys s).1.agent
      = { targets := response.PingTargets, fs := s.agent.fs,
          trace := s.agent.trace ++ [Effect.readMessage]
            ++ [Effect.setPingTargets response.PingTargets] } := by
    simp [readerStep, hrunning, hdecode, dispatch_config, htype]
  rw [hstep]
  refine ⟨fun _ => rfl, fun h => h, by simp⟩

/-- C5 on the specification's example: a `config` frame with one target replaces
the one target held before. -/
theorem readerStep_config_witness :
    (readerStep linuxBuild sampleUnmarshal configFrame none failingSys
        { agent := sampleAgent, done := none }).1.agent.targets
      = [{ Name := "a", Host := "1.1.1.1", Type_ := "", Port := 0 }]
    ∧ (configResponse.PingTargets ≠ [] →
        (readerStep linuxBuild sampleUnmarshal configFrame none failingSys
          { agent := sampleAgent, done := none }).1.agent.targets = configResponse.PingTargets)
    ∧ (configResponse.PingTargets = [] →
        (readerStep linuxBuild sampleUnmarshal configFrame none failingSys
          { agent := sampleAgent, done := none }).1.agent.targets = [])
    ∧ (readerStep linuxBuild sampleUnmarshal configFrame none failingSys
          { agent := sampleAgent, done := none }).1.agent.trace
        = sampleAgent.trace
          ++ [Effect.readMessage, Effect.setPingTargets configResponse.PingTargets] :=
  ⟨by decide,
    readerStep_config linuxBuild sampleUnmarshal configFrame failingSys
      { agent := sampleAgent, done := none } configResponse rfl rfl (by decide)⟩

theorem dispatch_ignored (pf : Platform) (sys : Sys) (response : ServerResponse) (a : Agent)
    (hconfig : response.Type_ ≠ "config")
    (hupdate : ¬ (response.Type_ = "command" ∧ response.Command = "update")) :
    dispatch pf sys response a = (a, none) := by
  unfold dispatch
  by_cases h1 : response.Type_ = "error"
  · rw [if_pos h1]
  · rw [if_neg h1]
    by_cases h2 : response.Type_ = "command"
    · rw [if_pos h2]
      have h3 : response.Command ≠ "update" := fun h => hupdate ⟨h2, h⟩
      rw [if_neg h3]
    · rw [if_neg h2, if_neg hconfig]

theorem readerStep_ignored (pf : Platform) (unmarshal : String → Except String ServerResponse)
    (message : String) (sys : Sys) (s : StreamState) (hrunning : s.done = none)
    (hframe : ∀ response, unmarshal message = Except.ok response →
      response.Type_ ≠ "config"
        ∧ ¬ (response.Type_ = "command" ∧ response.Command = "update")) :
    readerStep pf unmarshal message none sys s
      = ({ agent := { s.agent with trace := s.agent.trace ++ [Effect.readMessage] },
           done := none }, none) := by
  unfold readerStep
  rw [hrunning]
  cases hdec : unmarshal message with
  | error e => rfl
  | ok response =>
    obtain ⟨hc, hu⟩ := hframe response hdec
    simp only [dispatch_ignored pf sys response _ hc hu]

/-- C6: while the reader goroutine is running, a frame it reads without error
changes the collector's ping targets, or causes any call beyond the read itself
(in particular a call of `handleUpdateCommand`), only if it decodes and is of
type `config` or of type `command` with command `update`.  A malformed frame, a
frame of type `error`, a `command` frame with another command and a frame of any
other type leave the ping targets and the files as they were, make no call beyond
the read, do not terminate the process, and leave the reader running to read the
next frame. -/
theorem readerStep_effect_only_config_or_update (pf : Platform)
    (unmarshal : String → Except String ServerResponse) (message : String) (sys : Sys)
    (s : StreamState) (hrunning : s.done = none) :
    (((readerStep pf unmarshal message none sys s).1.agent.targets ≠ s.agent.targets
        ∨ (readerStep pf unmarshal message none sys s).1.agent.trace
            ≠ s.agent.trace ++ [Effect.readMessage]) →
      ∃ response, unmarshal message = Except.ok response
        ∧ (response.Type_ = "config"
            ∨ (response.Type_ = "command" ∧ response.Command = "update")))
    ∧ (((∃ e, unmarshal message = Except.error e)
        ∨ (∃ response, unmarshal message = Except.ok response
            ∧ (response.Type_ = "error"
                ∨ (response.Type_ = "command" ∧ response.Command ≠ "update")
                ∨ (response.Type_ ≠ "error" ∧ response.Type_ ≠ "command"
                    ∧ response.Type_ ≠ "config")))) →
      (readerStep pf unmarshal message none sys s).1.agent.targets = s.agent.targets
        ∧ (readerStep pf unmarshal message none sys s).1.agent.fs = s.agent.fs
        ∧ (∃ calls, (readerStep pf unmarshal message none sys s).1.agent.trace
              = s.agent.trace ++ calls
            ∧ calls = [Effect.readMessage]
            ∧ (∀ targets, Effect.setPingTargets targets ∉ calls)
            ∧ (∀ url force, Effect.handleUpdate url force ∉ calls))
        ∧ (readerStep pf unmarshal message none sys s).2 = none
        ∧ (readerStep pf unmarshal message none sys s).1.done = none) := by
  constructor
  · intro hchange
    by_contra hno
    have hframe : ∀ response, unmarshal message = Except.ok response →
        response.Type_ ≠ "config"
          ∧ ¬ (response.Type_ = "command" ∧ response.Command = "update") := by
      intro response hdec
      constructor
      · intro hc; exact hno ⟨response, hdec, Or.inl hc⟩
      · intro hu; exact hno ⟨response, hdec, Or.inr hu⟩
    rw [readerStep_ignored pf unmarshal message sys s hrunning hframe] at hchange
    simp at hchange
  · intro hcase
    have hframe : ∀ response, unmarshal message = Except.ok response →
        response.Type_ ≠ "config"
          ∧ ¬ (response.Type_ = "command" ∧ response.Command = "update") := by
      intro response hdec
      rcases hcase with ⟨e, he⟩ | ⟨r, hr, hkind⟩
      · rw [he] at hdec; cases hdec
      · rw [hr] at hdec
        cases hdec
        rcases hkind with h | ⟨h1, h2⟩ | ⟨_, h2, h3⟩
        · exact ⟨by rw [h]; decide, fun hu => by rw [h] at hu; exact absurd hu.1 (by decide)⟩
        · exact ⟨by rw [h1]; decide, fun hu => h2 hu.2⟩
        · exact ⟨h3, fun hu => h2 hu.1⟩
    rw [readerStep_ignored pf unmarshal message sys s hrunning hframe]
    exact ⟨rfl, rfl, ⟨[Effect.readMessage], rfl, rfl, by simp, by simp⟩, rfl, rfl⟩

/-- C6 on a `command` frame whose command is `reboot`: nothing but the read
happens and the reader keeps running. -/
theorem readerStep_effect_only_config_or_update_witness :
    (readerStep linuxBuild sampleUnmarshal rebootFrame none failingSys
        { agent := sampleAgent, done := none }).1.agent.targets = sampleAgent.targets
    ∧ (readerStep linuxBuild sampleUnmarshal rebootFrame none failingSys
        { agent := sampleAgent, done := none }).1.agent.fs = sampleAgent.fs
    ∧ (∃ calls, (readerStep linuxBuild sampleUnmarshal rebootFrame none failingSys
          { agent := sampleAgent, done := none }).1.agent.trace = sampleAgent.trace ++ calls
        ∧ calls = [Effect.readMessage]
        ∧ (∀ targets, Effect.setPingTargets targets ∉ calls)
        ∧ (∀ url force, Effect.handleUpdate url force ∉ calls))
    ∧ (readerStep linuxBuild sampleUnmarshal rebootFrame none failingSys
        { agent := sampleAgent, done := none }).2 = none
    ∧ (readerStep linuxBuild sampleUnmarshal rebootFrame none failingSys
        { agent := sampleAgent, done := none }).1.done = none :=
  (readerStep_effect_only_config_or_update linuxBuild sampleUnmarshal rebootFrame failingSys
    { agent := sampleAgent, done := none } rfl).2
    (Or.inr ⟨rebootResponse, rfl, Or.inr (Or.inl ⟨rfl, by decide⟩)⟩)

/-! ## Theorems: the self-updater -/

theorem fetchLatestGitHubVersion_trace (sys : Sys) (owner repo : String) :
    (fetchLatestGitHubVersion sys owner repo).2.2
      = [Effect.clientDo
          ("https://api.github.com/repos/" ++ owner ++ "/" ++ repo ++ "/releases/latest")] := by
  unfold fetchLatestGitHubVersion
  simp only []
  split
  · rfl
  · split
    · rfl
    · split <;> rfl

theorem resolveURL_of_nonempty (pf : Platform) (sys : Sys) (downloadURL : String) (force : Bool)
    (h : downloadURL ≠ "") : resolveURL pf sys downloadURL force = (some downloadURL, []) := by
  unfold resolveURL
  simp only [if_neg h]

theorem resolveURL_trace (pf : Platform) (sys : Sys) (downloadURL : String) (force : Bool) :
    ∀ e ∈ (resolveURL pf sys downloadURL force).2, ∃ u, e = Effect.clientDo u := by
  by_cases h : downloadURL = ""
  · subst h
    have ht := fetchLatestGitHubVersion_trace sys "zsai001" "vstats"
    unfold resolveURL
    simp only [if_true]
    intro e he
    split at he
    · next latest t heq =>
      rw [heq] at ht
      simp only at ht
      split at he <;> (simp only [ht, List.mem_singleton] at he; exact ⟨_, he⟩)
    · next p1 p2 t _ heq =>
      rw [heq] at ht
      simp only at ht
      simp only [ht, List.mem_singleton] at he
      exact ⟨_, he⟩
  · rw [resolveURL_of_nonempty pf sys downloadURL force h]
    intro e he
    simp at he

theorem resolveURL_of_latest (pf : Platform) (sys : Sys) (force : Bool) (T : String)
    (t : List Effect)
    (hq : fetchLatestGitHubVersion sys "zsai001" "vstats" = (some T, none, t)) :
    resolveURL pf sys "" force
      = if force = false ∧ TrimPrefix T "v" = TrimPrefix pf.AgentVersion "v" then (none, t)
        else (some ("https://github.com/zsai001/vstats/releases/download/" ++ T ++ "/"
          ++ binaryName pf), t) := by
  unfold resolveURL
  simp only [if_true, hq]
  cases force <;> simp

theorem downloadFile_trace_head (sys : Sys) (url path : String) (fs : FileSystem) :
    ∃ rest, (downloadFile sys url path fs).2.2 = Effect.httpGet url :: rest := by
  unfold downloadFile osCreate
  repeat' split
  all_goals exact ⟨_, rfl⟩

theorem downloadFile_trace_kinds (sys : Sys) (url path : String) (fs : FileSystem) :
    ∀ e ∈ (downloadFile sys url path fs).2.2,
      e = Effect.httpGet url ∨ e = Effect.create path ∨ e = Effect.copy path
        ∨ e = Effect.remove path := by
  unfold downloadFile osCreate
  repeat' split
  all_goals simp

theorem handleUpdateCommand_of_executable_error (pf : Platform) (sys : Sys)
    (downloadURL : String) (force : Bool) (fs : FileSystem) (e : String)
    (hexe : sys.executable = Except.error e) :
    handleUpdateCommand pf sys downloadURL force fs
      = { fs := fs, trace := [Effect.executable], exit := none } := by
  simp only [handleUpdateCommand, hexe]

theorem handleUpdateCommand_of_skip (pf : Platform) (sys : Sys) (downloadURL : String)
    (force : Bool) (fs : FileSystem) (currentExe : String) (t1 : List Effect)
    (hexe : sys.executable = Except.ok currentExe)
    (hurl : resolveURL pf sys downloadURL force = (none, t1)) :
    handleUpdateCommand pf sys downloadURL force fs
      = { fs := fs, trace := Effect.executable :: t1, exit := none } := by
  simp only [handleUpdateCommand, hexe, hurl]

theorem handleUpdateCommand_of_download_error (pf : Platform) (sys : Sys)
    (downloadURL : String) (force : Bool) (fs : FileSystem) (currentExe url : String)
    (hexe : sys.executable = Except.ok currentExe)
    (hurl : (resolveURL pf sys downloadURL force).1 = some url)
    (hfail : (downloadFile sys url (currentExe ++ ".new") fs).1 ≠ none) :
    handleUpdateCommand pf sys downloadURL force fs
      = { fs := (downloadFile sys url (currentExe ++ ".new") fs).2.1,
          trace := Effect.executable :: ((resolveURL pf sys downloadURL force).2
            ++ (downloadFile sys url (currentExe ++ ".new") fs).2.2),
          exit := none } := by
  rcases hr : resolveURL pf sys downloadURL force with ⟨u, t1⟩
  rw [hr] at hurl
  simp only at hurl
  subst hurl
  rcases hd : downloadFile sys url (currentExe ++ ".new") fs with ⟨err, fs1, t2⟩
  rw [hd] at hfail
  simp only at hfail
  obtain ⟨e, rfl⟩ := Option.ne_none_iff_exists'.mp hfail
  simp only [handleUpdateCommand, hexe, hr, hd]

theorem requestRestart_not_request (pf : Platform) (sys : Sys) :
    ∀ e ∈ requestRestart pf sys, e.isRequest = false := by
  unfold requestRestart
  repeat' split
  all_goals simp [Effect.isRequest]

theorem swapAndRestart_trace (pf : Platform) (sys : Sys) (currentExe tempPath : String)
    (fs : FileSystem) (trace : List Effect) :
    ∃ rest, (swapAndRestart pf sys currentExe tempPath fs trace).trace = trace ++ rest
      ∧ ∀ e ∈ rest, e.isRequest = false := by
  have hr := requestRestart_not_request pf sys
  cases h1 : sys.renameErr currentExe (currentExe ++ ".backup") with
  | some e =>
    exact ⟨[Effect.rename currentExe (currentExe ++ ".backup"), Effect.remove tempPath],
      by simp [swapAndRestart, osRename, h1], by simp [Effect.isRequest]⟩
  | none =>
    cases h2 : fs currentExe with
    | none =>
      exact ⟨[Effect.rename currentExe (currentExe ++ ".backup"), Effect.remove tempPath],
        by simp [swapAndRestart, osRename, h1, h2], by simp [Effect.isRequest]⟩
    | some content =>
      rcases h3 : osRename sys tempPath currentExe
        ((fs.set currentExe none).set (currentExe ++ ".backup") (some content)) with ⟨err, fs2⟩
      cases err with
      | some e =>
        exact ⟨[Effect.rename currentExe (currentExe ++ ".backup"),
            Effect.rename tempPath currentExe,
            Effect.rename (currentExe ++ ".backup") currentExe],
          by simp [swapAndRestart, osRename, h1, h2] at h3 ⊢; simp [h3],
          by simp [Effect.isRequest]⟩
      | none =>
        refine ⟨[Effect.rename currentExe (currentExe ++ ".backup"),
            Effect.rename tempPath currentExe, Effect.remove (currentExe ++ ".backup")]
            ++ requestRestart pf sys ++ [Effect.sleep (500 * 1000000), Effect.exit 0], ?_, ?_⟩
        · simp [swapAndRestart, osRename, h1, h2] at h3 ⊢; simp [h3]
        · intro e he
          simp only [List.mem_append, List.mem_cons, List.mem_singleton, List.not_mem_nil,
            or_false] at he
          rcases he with ((h | h | h) | h) | h | h
          · simp [h, Effect.isRequest]
          · simp [h, Effect.isRequest]
          · simp [h, Effect.isRequest]
          · exact hr e h
          · simp [h, Effect.isRequest]
          · simp [h, Effect.isRequest]

theorem handleUpdateCommand_trace_of_url (pf : Platform) (sys : Sys) (downloadURL : String)
    (force : Bool) (fs : FileSystem) (currentExe url : String)
    (hexe : sys.executable = Except.ok currentExe)
    (hurl : (resolveURL pf sys downloadURL force).1 = some url) :
    ∃ rest, (handleUpdateCommand pf sys downloadURL force fs).trace
        = Effect.executable :: ((resolveURL pf sys downloadURL force).2
            ++ (downloadFile sys url (currentExe ++ ".new") fs).2.2) ++ rest
      ∧ ∀ e ∈ rest, e.isRequest = false := by
  by_cases hfail : (downloadFile sys url (currentExe ++ ".new") fs).1 = none
  · rcases hr : resolveURL pf sys downloadURL force with ⟨u, t1⟩
    rw [hr] at hurl
    simp only at hurl
    subst hurl
    rcases hd : downloadFile sys url (currentExe ++ ".new") fs with ⟨err, fs1, t2⟩
    rw [hd] at hfail
    simp only at hfail
    subst hfail
    simp only [handleUpdateCommand, hexe, hr, hd]
    split
    · split
      · exact ⟨_, rfl, by simp [Effect.isRequest]⟩
      · obtain ⟨rest, hrest, hkind⟩ := swapAndRestart_trace pf sys currentExe
          (currentExe ++ ".new") ‹FileSystem›
          (Effect.executable :: (t1 ++ t2) ++ [Effect.chmod (currentExe ++ ".new")])
        refine ⟨Effect.chmod (currentExe ++ ".new") :: rest, by rw [hrest]; simp, ?_⟩
        intro e he
        rcases List.mem_cons.mp he with h | h
        · simp [h, Effect.isRequest]
        · exact hkind e h
    · exact swapAndRestart_trace pf sys currentExe (currentExe ++ ".new") fs1
        (Effect.executable :: (t1 ++ t2))
  · rw [handleUpdateCommand_of_download_error pf sys downloadURL force fs currentExe url hexe
      hurl hfail]
    exact ⟨[], by simp, by simp⟩

/-- C7: with an empty `download_url`, when the release index was queried and
`fetchLatestGitHubVersion` returned tag `T` without error, `handleUpdateCommand`
issues no download request if and only if `force` is false and `T` without one
leading "v" equals `AgentVersion` without one leading "v".  In that case the
files are untouched, the only calls made are `os.Executable` and the release
query, and the function returns without exiting; otherwise the download of
`.../releases/download/T/<binary>` is requested. -/
theorem handleUpdateCommand_skips_iff_latest (pf : Platform) (sys : Sys) (force : Bool)
    (fs : FileSystem) (T : String)
    (hqueried : ∃ u, Effect.clientDo u ∈ (handleUpdateCommand pf sys "" force fs).trace)
    (hlatest : (fetchLatestGitHubVersion sys "zsai001" "vstats").1 = some T
      ∧ (fetchLatestGitHubVersion sys "zsai001" "vstats").2.1 = none) :
    ((∀ url, Effect.httpGet url ∉ (handleUpdateCommand pf sys "" force fs).trace)
        ↔ (force = false ∧ TrimPrefix T "v" = TrimPrefix pf.AgentVersion "v"))
    ∧ ((force = false ∧ TrimPrefix T "v" = TrimPrefix pf.AgentVersion "v") →
        (handleUpdateCommand pf sys "" force fs).fs = fs
        ∧ (∀ e ∈ (handleUpdateCommand pf sys "" force fs).trace,
            e = Effect.executable ∨ ∃ u, e = Effect.clientDo u)
        ∧ (handleUpdateCommand pf sys "" force fs).exit = none)
    ∧ (¬ (force = false ∧ TrimPrefix T "v" = TrimPrefix pf.AgentVersion "v") →
        Effect.httpGet ("https://github.com/zsai001/vstats/releases/download/" ++ T ++ "/"
          ++ binaryName pf) ∈ (handleUpdateCommand pf sys "" force fs).trace) := by
  -- the query was made, so the executable path was found
  obtain ⟨currentExe, hexe⟩ : ∃ c, sys.executable = Except.ok c := by
    cases hexe : sys.executable with
    | error e =>
      rw [handleUpdateCommand_of_executable_error pf sys "" force fs e hexe] at hqueried
      simp at hqueried
    | ok c => exact ⟨c, rfl⟩
  rcases hq : fetchLatestGitHubVersion sys "zsai001" "vstats" with ⟨latest, err, t⟩
  rw [hq] at hlatest
  obtain ⟨h1, h2⟩ := hlatest
  simp only at h1 h2
  subst h1 h2
  have ht : t = [Effect.clientDo
      ("https://api.github.com/repos/" ++ "zsai001" ++ "/" ++ "vstats" ++ "/releases/latest")] := by
    have := fetchLatestGitHubVersion_trace sys "zsai001" "vstats"
    rw [hq] at this
    exact this
  have hres := resolveURL_of_latest pf sys force T t hq
  by_cases hskip : force = false ∧ TrimPrefix T "v" = TrimPrefix pf.AgentVersion "v"
  · rw [if_pos hskip] at hres
    have hrun := handleUpdateCommand_of_skip pf sys "" force fs currentExe t hexe hres
    rw [hrun, ht]
    refine ⟨⟨fun _ => hskip, fun _ url => by simp⟩, fun _ => ⟨rfl, ?_, rfl⟩,
      fun hn => absurd hskip hn⟩
    intro e he
    simp at he
    rcases he with h | h
    · exact Or.inl h
    · exact Or.inr ⟨_, h⟩
  · rw [if_neg hskip] at hres
    have hurl : (resolveURL pf sys "" force).1
        = some ("https://github.com/zsai001/vstats/releases/download/" ++ T ++ "/"
            ++ binaryName pf) := by rw [hres]
    obtain ⟨rest, hrest, _⟩ := handleUpdateCommand_trace_of_url pf sys "" force fs currentExe _
      hexe hurl
    obtain ⟨rest2, hhead⟩ := downloadFile_trace_head sys
      ("https://github.com/zsai001/vstats/releases/download/" ++ T ++ "/" ++ binaryName pf)
      (currentExe ++ ".new") fs
    have hmem : Effect.httpGet ("https://github.com/zsai001/vstats/releases/download/" ++ T
        ++ "/" ++ binaryName pf) ∈ (handleUpdateCommand pf sys "" force fs).trace := by
      rw [hrest, hhead]
      simp
    refine ⟨⟨fun hno => absurd hmem (hno _), fun h => absurd h hskip⟩,
      fun h => absurd h hskip, fun _ => hmem⟩

/-- C7 on the specification's example: version "1.2.0" with latest tag "v1.2.0".
Without `force` nothing but the path lookup and the release query happens; with
`force` the update runs through download, backup and install to the restart. -/
theorem handleUpdateCommand_skips_iff_latest_witness :
    (handleUpdateCommand linuxBuild workingSys "" false cleanDisk).trace
      = [Effect.executable,
         Effect.clientDo "https://api.github.com/repos/zsai001/vstats/releases/latest"]
    ∧ (handleUpdateCommand linuxBuild workingSys "" true cleanDisk).trace
      = [Effect.executable,
         Effect.clientDo "https://api.github.com/repos/zsai001/vstats/releases/latest",
         Effect.httpGet
           "https://github.com/zsai001/vstats/releases/download/v1.2.0/vstats-agent-linux-amd64",
         Effect.create "/opt/vstats/agent.new", Effect.copy "/opt/vstats/agent.new",
         Effect.chmod "/opt/vstats/agent.new",
         Effect.rename "/opt/vstats/agent" "/opt/vstats/agent.backup",
         Effect.rename "/opt/vstats/agent.new" "/opt/vstats/agent",
         Effect.remove "/opt/vstats/agent.backup",
         Effect.start systemdRunCmd, Effect.sleep 500000000, Effect.exit 0]
    ∧ ((∀ url, Effect.httpGet url ∉ (handleUpdateCommand linuxBuild workingSys "" false
          cleanDisk).trace)
        ↔ (false = false ∧ TrimPrefix "v1.2.0" "v" = TrimPrefix linuxBuild.AgentVersion "v")) :=
  ⟨by decide, by decide,
    (handleUpdateCommand_skips_iff_latest linuxBuild workingSys false cleanDisk "v1.2.0"
      ⟨"https://api.github.com/repos/zsai001/vstats/releases/latest", by decide⟩
      ⟨rfl, rfl⟩).1⟩

theorem downloadFile_fs_of_ne (sys : Sys) (url path : String) (fs : FileSystem) (p : String)
    (hp : p ≠ path) : (downloadFile sys url path fs).2.1 p = fs p := by
  cases h1 : sys.httpGet url with
  | failed e => simp [downloadFile, h1]
  | response code body =>
    cases h3 : sys.createErr path <;> cases h4 : sys.copyResult path body <;>
      cases h5 : sys.removeErr path <;> by_cases h2 : code = 200 <;>
      simp [downloadFile, osCreate, osRemove, FileSystem.set, *]

theorem downloadFile_fs_before_copy (sys : Sys) (url path : String) (fs : FileSystem)
    (hfail : (downloadFile sys url path fs).1 ≠ none)
    (hcopy : Effect.copy path ∉ (downloadFile sys url path fs).2.2) :
    (downloadFile sys url path fs).2.1 = fs := by
  cases h1 : sys.httpGet url with
  | failed e => simp [downloadFile, h1]
  | response code body =>
    cases h3 : sys.createErr path <;> cases h4 : sys.copyResult path body <;>
      by_cases h2 : code = 200 <;>
      simp_all [downloadFile, osCreate]

theorem downloadFile_fs_after_copy (sys : Sys) (url path : String) (fs : FileSystem)
    (hfail : (downloadFile sys url path fs).1 ≠ none)
    (hcopy : Effect.copy path ∈ (downloadFile sys url path fs).2.2)
    (hremove : sys.removeErr path = none) :
    (downloadFile sys url path fs).2.1 path = none := by
  cases h1 : sys.httpGet url with
  | failed e => simp [downloadFile, h1] at hcopy
  | response code body =>
    cases h3 : sys.createErr path <;> cases h4 : sys.copyResult path body <;>
      by_cases h2 : code = 200 <;>
      simp_all [downloadFile, osCreate, osRemove, FileSystem.set]

theorem append_new_ne (s : String) : s ≠ s ++ ".new" := by
  intro h
  have hlen := congrArg String.length h
  rw [String.length_append] at hlen
  have h4 : ".new".length = 4 := by decide
  omega

theorem downloadFile_error_iff (sys : Sys) (url path : String) (fs : FileSystem) :
    (downloadFile sys url path fs).1 ≠ none ↔
      ((∃ e, sys.httpGet url = HttpResult.failed e)
        ∨ (∃ code body, sys.httpGet url = HttpResult.response code body ∧ code ≠ 200)
        ∨ (∃ body, sys.httpGet url = HttpResult.response 200 body ∧ sys.createErr path ≠ none)
        ∨ (∃ body written e, sys.httpGet url = HttpResult.response 200 body
            ∧ sys.createErr path = none
            ∧ sys.copyResult path body = CopyResult.failed written e)) := by
  cases h1 : sys.httpGet url with
  | failed e => simp [downloadFile, h1]
  | response code body =>
    cases h3 : sys.createErr path <;> cases h4 : sys.copyResult path body <;>
      by_cases h2 : code = 200 <;>
      simp_all [downloadFile, osCreate]

/-- C8, as stated, fails: with a non-empty `download_url`, when `os.Executable`
returns an error the updater returns at once and never reaches the download. -/
theorem handleUpdateCommand_given_url_no_executable :
    "https://mirror.example/vstats-agent" ≠ ""
    ∧ (handleUpdateCommand linuxBuild failingSys "https://mirror.example/vstats-agent" true
        cleanDisk).trace = [Effect.executable]
    ∧ Effect.httpGet "https://mirror.example/vstats-agent"
        ∉ (handleUpdateCommand linuxBuild failingSys "https://mirror.example/vstats-agent" true
            cleanDisk).trace := by
  decide

/-- C8, amended: for every non-empty `download_url`, every `force` and every
running version, the release index is not queried, URL resolution yields exactly
the supplied URL (the "already on latest version" return is not taken), and no
other URL is ever requested; and provided `os.Executable` succeeds, the download
of the supplied URL is requested. -/
theorem handleUpdateCommand_given_url (pf : Platform) (sys : Sys) (downloadURL : String)
    (force : Bool) (fs : FileSystem) (hgiven : downloadURL ≠ "") :
    (∀ u, Effect.clientDo u ∉ (handleUpdateCommand pf sys downloadURL force fs).trace)
    ∧ resolveURL pf sys downloadURL force = (some downloadURL, [])
    ∧ (∀ u, Effect.httpGet u ∈ (handleUpdateCommand pf sys downloadURL force fs).trace →
        u = downloadURL)
    ∧ (∀ currentExe, sys.executable = Except.ok currentExe →
        Effect.httpGet downloadURL ∈ (handleUpdateCommand pf sys downloadURL force fs).trace) := by
  have hres := resolveURL_of_nonempty pf sys downloadURL force hgiven
  have hurl : (resolveURL pf sys downloadURL force).1 = some downloadURL := by rw [hres]
  cases hexe : sys.executable with
  | error e =>
    rw [handleUpdateCommand_of_executable_error pf sys downloadURL force fs e hexe]
    refine ⟨by simp, hres, by simp, ?_⟩
    intro c hc
    cases hc
  | ok currentExe =>
    obtain ⟨rest, htrace, hrest⟩ := handleUpdateCommand_trace_of_url pf sys downloadURL force fs
      currentExe downloadURL hexe hurl
    obtain ⟨rest2, hhead⟩ := downloadFile_trace_head sys downloadURL (currentExe ++ ".new") fs
    have hkinds := downloadFile_trace_kinds sys downloadURL (currentExe ++ ".new") fs
    rw [hres] at htrace
    simp only [List.nil_append] at htrace
    rw [htrace]
    refine ⟨?_, hres, ?_, ?_⟩
    · intro u hu
      simp only [List.cons_append, List.mem_cons, List.mem_append] at hu
      rcases hu with h | h | h
      · cases h
      · rcases hkinds _ h with h' | h' | h' | h' <;> cases h'
      · have := hrest _ h
        simp [Effect.isRequest] at this
    · intro u hu
      simp only [List.cons_append, List.mem_cons, List.mem_append] at hu
      rcases hu with h | h | h
      · cases h
      · rcases hkinds _ h with h' | h' | h' | h'
        · cases h'; rfl
        · cases h'
        · cases h'
        · cases h'
      · have := hrest _ h
        simp [Effect.isRequest] at this
    · intro _ _
      rw [hhead]
      simp

/-- C8 amended, on a forced update from a mirror: the one request made is the
download of the given URL. -/
theorem handleUpdateCommand_given_url_witness :
    (∀ u, Effect.clientDo u ∉ (handleUpdateCommand linuxBuild workingSys
        "https://mirror.example/vstats-agent" true cleanDisk).trace)
    ∧ resolveURL linuxBuild workingSys "https://mirror.example/vstats-agent" true
        = (some "https://mirror.example/vstats-agent", [])
    ∧ (∀ u, Effect.httpGet u ∈ (handleUpdateCommand linuxBuild workingSys
        "https://mirror.example/vstats-agent" true cleanDisk).trace →
        u = "https://mirror.example/vstats-agent")
    ∧ (∀ currentExe, workingSys.executable = Except.ok currentExe →
        Effect.httpGet "https://mirror.example/vstats-agent"
          ∈ (handleUpdateCommand linuxBuild workingSys "https://mirror.example/vstats-agent"
              true cleanDisk).trace) :=
  handleUpdateCommand_given_url linuxBuild workingSys "https://mirror.example/vstats-agent" true
    cleanDisk (by decide)

/-- C9: if `downloadFile` returns an error, then after `handleUpdateCommand` the
file at `currentExe` is what it was, no rename (so none to the backup path) was
attempted, no restart command was started, and the function returned without
calling `os.Exit`. -/
theorem handleUpdateCommand_download_failure_keeps_binary (pf : Platform) (sys : Sys)
    (downloadURL : String) (force : Bool) (fs : FileSystem) (currentExe url : String)
    (hexe : sys.executable = Except.ok currentExe)
    (hurl : (resolveURL pf sys downloadURL force).1 = some url)
    (hfail : (downloadFile sys url (currentExe ++ ".new") fs).1 ≠ none) :
    (handleUpdateCommand pf sys downloadURL force fs).fs currentExe = fs currentExe
    ∧ (∀ src dst, Effect.rename src dst ∉ (handleUpdateCommand pf sys downloadURL force fs).trace)
    ∧ (∀ argv, Effect.start argv ∉ (handleUpdateCommand pf sys downloadURL force fs).trace)
    ∧ (∀ code, Effect.exit code ∉ (handleUpdateCommand pf sys downloadURL force fs).trace)
    ∧ (handleUpdateCommand pf sys downloadURL force fs).exit = none := by
  rw [handleUpdateCommand_of_download_error pf sys downloadURL force fs currentExe url hexe hurl
    hfail]
  have hkinds := downloadFile_trace_kinds sys url (currentExe ++ ".new") fs
  have hres := resolveURL_trace pf sys downloadURL force
  have hnot : ∀ e, e ∈ Effect.executable :: ((resolveURL pf sys downloadURL force).2
      ++ (downloadFile sys url (currentExe ++ ".new") fs).2.2) →
      e = Effect.executable ∨ (∃ u, e = Effect.clientDo u) ∨ e = Effect.httpGet url
        ∨ e = Effect.create (currentExe ++ ".new") ∨ e = Effect.copy (currentExe ++ ".new")
        ∨ e = Effect.remove (currentExe ++ ".new") := by
    intro e he
    simp only [List.mem_cons, List.mem_append] at he
    rcases he with h | h | h
    · exact Or.inl h
    · exact Or.inr (Or.inl (hres e h))
    · exact Or.inr (Or.inr (hkinds e h))
  refine ⟨downloadFile_fs_of_ne sys url _ fs currentExe (append_new_ne currentExe), ?_, ?_, ?_,
    rfl⟩
  · intro src dst h
    rcases hnot _ h with h' | ⟨u, h'⟩ | h' | h' | h' | h' <;> cases h'
  · intro argv h
    rcases hnot _ h with h' | ⟨u, h'⟩ | h' | h' | h' | h' <;> cases h'
  · intro code h
    rcases hnot _ h with h' | ⟨u, h'⟩ | h' | h' | h' | h' <;> cases h'

/-- C9 on a body copy that breaks off: the installed binary is still in place. -/
theorem handleUpdateCommand_download_failure_keeps_binary_witness :
    (handleUpdateCommand linuxBuild shortCopySys "" true cleanDisk).fs "/opt/vstats/agent"
      = some "old-binary"
    ∧ (∀ src dst, Effect.rename src dst
        ∉ (handleUpdateCommand linuxBuild shortCopySys "" true cleanDisk).trace)
    ∧ (handleUpdateCommand linuxBuild shortCopySys "" true cleanDisk).exit = none :=
  have h := handleUpdateCommand_download_failure_keeps_binary linuxBuild shortCopySys "" true
    cleanDisk "/opt/vstats/agent"
    "https://github.com/zsai001/vstats/releases/download/v1.2.0/vstats-agent-linux-amd64"
    rfl (by decide) (by decide)
  ⟨h.1, h.2.1, h.2.2.2.2⟩

/-- C10, as stated, fails: a file already at the temporary path survives a
download that fails at the transport, and a partly written file stays when its
removal fails. -/
theorem handleUpdateCommand_download_failure_leaves_temp :
    ((handleUpdateCommand linuxBuild noNetworkSys "" true staleDisk).trace
        = [Effect.executable,
           Effect.clientDo "https://api.github.com/repos/zsai001/vstats/releases/latest",
           Effect.httpGet
             "https://github.com/zsai001/vstats/releases/download/v1.2.0/vstats-agent-linux-amd64"]
      ∧ (handleUpdateCommand linuxBuild noNetworkSys "" true staleDisk).fs
          ("/opt/vstats/agent" ++ ".new") = some "stale")
    ∧ (cleanDisk ("/opt/vstats/agent" ++ ".new") = none
      ∧ (handleUpdateCommand linuxBuild brokenCopySys "" true cleanDisk).fs
          ("/opt/vstats/agent" ++ ".new") = some "new") := by
  decide

/-- C10, amended: when `downloadFile` returns an error, then (1) if the body copy
was never started (transport error, non-200 status, file-create failure) the
files are exactly as before the call; (2) if the body copy was started and the
removal of the temporary file succeeds, there is no file at the temporary path;
(3) so if there was no file at the temporary path before the call, and the
removal succeeds whenever the copy was started, there is none afterwards. -/
theorem handleUpdateCommand_download_failure_temp (pf : Platform) (sys : Sys)
    (downloadURL : String) (force : Bool) (fs : FileSystem) (currentExe url : String)
    (hexe : sys.executable = Except.ok currentExe)
    (hurl : (resolveURL pf sys downloadURL force).1 = some url)
    (hfail : (downloadFile sys url (currentExe ++ ".new") fs).1 ≠ none) :
    (Effect.copy (currentExe ++ ".new") ∉ (handleUpdateCommand pf sys downloadURL force fs).trace →
        (handleUpdateCommand pf sys downloadURL force fs).fs = fs)
    ∧ (Effect.copy (currentExe ++ ".new") ∈ (handleUpdateCommand pf sys downloadURL force fs).trace →
        sys.removeErr (currentExe ++ ".new") = none →
        (handleUpdateCommand pf sys downloadURL force fs).fs (currentExe ++ ".new") = none)
    ∧ (fs (currentExe ++ ".new") = none →
        (Effect.copy (currentExe ++ ".new")
            ∈ (handleUpdateCommand pf sys downloadURL force fs).trace →
          sys.removeErr (currentExe ++ ".new") = none) →
        (handleUpdateCommand pf sys downloadURL force fs).fs (currentExe ++ ".new") = none) := by
  rw [handleUpdateCommand_of_download_error pf sys downloadURL force fs currentExe url hexe hurl
    hfail]
  have hres := resolveURL_trace pf sys downloadURL force
  have hiff : Effect.copy (currentExe ++ ".new") ∈ Effect.executable
        :: ((resolveURL pf sys downloadURL force).2
          ++ (downloadFile sys url (currentExe ++ ".new") fs).2.2)
      ↔ Effect.copy (currentExe ++ ".new")
          ∈ (downloadFile sys url (currentExe ++ ".new") fs).2.2 := by
    constructor
    · intro h
      simp only [List.mem_cons, List.mem_append] at h
      rcases h with h | h | h
      · cases h
      · obtain ⟨u, hu⟩ := hres _ h
        cases hu
      · exact h
    · intro h
      simp [h]
  simp only [hiff]
  have h1 := downloadFile_fs_before_copy sys url (currentExe ++ ".new") fs hfail
  have h2 := downloadFile_fs_after_copy sys url (currentExe ++ ".new") fs hfail
  refine ⟨h1, h2, ?_⟩
  intro hnone hrm
  by_cases hc : Effect.copy (currentExe ++ ".new")
      ∈ (downloadFile sys url (currentExe ++ ".new") fs).2.2
  · exact h2 hc (hrm hc)
  · rw [h1 hc]; exact hnone

/-- C10 amended, on a body copy that breaks off with the removal succeeding: no
file is left at the temporary path. -/
theorem handleUpdateCommand_download_failure_temp_witness :
    (handleUpdateCommand linuxBuild shortCopySys "" true cleanDisk).fs
      ("/opt/vstats/agent" ++ ".new") = none :=
  (handleUpdateCommand_download_failure_temp linuxBuild shortCopySys "" true cleanDisk
    "/opt/vstats/agent"
    "https://github.com/zsai001/vstats/releases/download/v1.2.0/vstats-agent-linux-amd64"
    rfl (by decide) (by decide)).2.2 (by decide) (fun _ => rfl)

/-! ## Theorems: backup, install and restart -/

theorem append_backup_ne (s : String) : s ≠ s ++ ".backup" := by
  intro h
  have hlen := congrArg String.length h
  rw [String.length_append] at hlen
  have h7 : ".backup".length = 7 := by decide
  omega

theorem append_new_ne_append_backup (s : String) : s ++ ".new" ≠ s ++ ".backup" := by
  intro h
  have hlen := congrArg String.length h
  rw [String.length_append, String.length_append] at hlen
  have h4 : ".new".length = 4 := by decide
  have h7 : ".backup".length = 7 := by decide
  omega

theorem osChmod_fs (sys : Sys) (path : String) (fs : FileSystem) :
    (osChmod sys path fs).2 = fs := by
  unfold osChmod
  cases sys.chmodErr path <;> cases fs path <;> rfl

theorem osRename_of_ok (sys : Sys) (src dst : String) (fs : FileSystem)
    (h : (osRename sys src dst fs).1 = none) :
    ∃ content, sys.renameErr src dst = none ∧ fs src = some content
      ∧ (osRename sys src dst fs).2 = (fs.set src none).set dst (some content) := by
  unfold osRename at h ⊢
  cases h1 : sys.renameErr src dst <;> cases h2 : fs src <;> simp_all

theorem osRename_of_error (sys : Sys) (src dst : String) (fs : FileSystem)
    (h : (osRename sys src dst fs).1 ≠ none) : (osRename sys src dst fs).2 = fs := by
  unfold osRename at h ⊢
  cases h1 : sys.renameErr src dst <;> cases h2 : fs src <;> simp_all

theorem osRemove_fs (sys : Sys) (path : String) (fs : FileSystem) (p : String) :
    (osRemove sys path fs).2 p
      = if sys.removeErr path = none ∧ p = path then none else fs p := by
  unfold osRemove
  cases h1 : sys.removeErr path <;> cases h2 : fs path <;> by_cases hp : p = path <;>
    simp_all [FileSystem.set]

theorem downloadFile_of_ok (sys : Sys) (url path : String) (fs : FileSystem)
    (h : (downloadFile sys url path fs).1 = none) :
    ∃ body, sys.httpGet url = HttpResult.response 200 body
      ∧ (downloadFile sys url path fs).2.1 path = some body := by
  cases h1 : sys.httpGet url with
  | failed e => simp [downloadFile, h1] at h
  | response code body =>
    cases h3 : sys.createErr path <;> cases h4 : sys.copyResult path body <;>
      by_cases h2 : code = 200 <;>
      simp_all [downloadFile, osCreate, FileSystem.set]

theorem handleUpdateCommand_of_chmod_error (pf : Platform) (sys : Sys)
    (downloadURL : String) (force : Bool) (fs : FileSystem) (currentExe url : String)
    (hexe : sys.executable = Except.ok currentExe)
    (hurl : (resolveURL pf sys downloadURL force).1 = some url)
    (hdl : (downloadFile sys url (currentExe ++ ".new") fs).1 = none)
    (hos : pf.GOOS ≠ "windows")
    (hperm : (osChmod sys (currentExe ++ ".new") (fsAtBackup sys url currentExe fs)).1 ≠ none) :
    handleUpdateCommand pf sys downloadURL force fs
      = { fs := (osRemove sys (currentExe ++ ".new") (fsAtBackup sys url currentExe fs)).2,
          trace := Effect.executable :: ((resolveURL pf sys downloadURL force).2
              ++ (downloadFile sys url (currentExe ++ ".new") fs).2.2)
            ++ [Effect.chmod (currentExe ++ ".new"), Effect.remove (currentExe ++ ".new")],
          exit := none } := by
  rcases hr : resolveURL pf sys downloadURL force with ⟨u, t1⟩
  rw [hr] at hurl
  simp only at hurl
  subst hurl
  unfold fsAtBackup at hperm ⊢
  rcases hd : downloadFile sys url (currentExe ++ ".new") fs with ⟨err, fs1, t2⟩
  rw [hd] at hdl hperm
  simp only at hdl hperm
  subst hdl
  rcases hc : osChmod sys (currentExe ++ ".new") fs1 with ⟨cerr, fs2⟩
  have hfs2 : fs2 = fs1 := by
    have := osChmod_fs sys (currentExe ++ ".new") fs1
    rw [hc] at this
    exact this
  rw [hc] at hperm
  simp only at hperm
  obtain ⟨e, rfl⟩ := Option.ne_none_iff_exists'.mp hperm
  subst hfs2
  simp only [handleUpdateCommand, hexe, hr, hd, hc, if_pos hos]

theorem handleUpdateCommand_of_reaches_backup (pf : Platform) (sys : Sys)
    (downloadURL : String) (force : Bool) (fs : FileSystem) (currentExe url : String)
    (hreach : ReachesBackup pf sys downloadURL force fs currentExe url) :
    handleUpdateCommand pf sys downloadURL force fs
      = swapAndRestart pf sys currentExe (currentExe ++ ".new")
          (fsAtBackup sys url currentExe fs)
          (Effect.executable :: ((resolveURL pf sys downloadURL force).2
              ++ (downloadFile sys url (currentExe ++ ".new") fs).2.2)
            ++ (if pf.GOOS ≠ "windows" then [Effect.chmod (currentExe ++ ".new")] else [])) := by
  obtain ⟨hexe, hurl, hdl, hperm⟩ := hreach
  rcases hr : resolveURL pf sys downloadURL force with ⟨u, t1⟩
  rw [hr] at hurl
  simp only at hurl
  subst hurl
  unfold fsAtBackup at hperm ⊢
  rcases hd : downloadFile sys url (currentExe ++ ".new") fs with ⟨err, fs1, t2⟩
  rw [hd] at hdl hperm
  simp only at hdl hperm
  subst hdl
  by_cases hos : pf.GOOS ≠ "windows"
  · rcases hc : osChmod sys (currentExe ++ ".new") fs1 with ⟨cerr, fs2⟩
    have hfs2 : fs2 = fs1 := by
      have := osChmod_fs sys (currentExe ++ ".new") fs1
      rw [hc] at this
      exact this
    have hnone := hperm hos
    rw [hc] at hnone
    simp only at hnone
    subst hnone
    subst hfs2
    simp only [handleUpdateCommand, hexe, hr, hd, hc, if_pos hos]
  · simp only [handleUpdateCommand, hexe, hr, hd, if_neg hos, List.append_nil]

theorem swapAndRestart_of_backup_error (pf : Platform) (sys : Sys) (currentExe tempPath : String)
    (fs : FileSystem) (trace : List Effect)
    (h : (osRename sys currentExe (currentExe ++ ".backup") fs).1 ≠ none) :
    swapAndRestart pf sys currentExe tempPath fs trace
      = { fs := (osRemove sys tempPath fs).2,
          trace := trace ++ [Effect.rename currentExe (currentExe ++ ".backup"),
            Effect.remove tempPath],
          exit := none } := by
  have hfs := osRename_of_error sys currentExe (currentExe ++ ".backup") fs h
  rcases hb : osRename sys currentExe (currentExe ++ ".backup") fs with ⟨err, fs1⟩
  rw [hb] at h hfs
  simp only at h hfs
  obtain ⟨e, rfl⟩ := Option.ne_none_iff_exists'.mp h
  subst hfs
  simp only [swapAndRestart, hb]

theorem swapAndRestart_of_install_error (pf : Platform) (sys : Sys)
    (currentExe tempPath : String) (fs : FileSystem) (trace : List Effect)
    (hb : (osRename sys currentExe (currentExe ++ ".backup") fs).1 = none)
    (hi : (osRename sys tempPath currentExe
      (osRename sys currentExe (currentExe ++ ".backup") fs).2).1 ≠ none) :
    swapAndRestart pf sys currentExe tempPath fs trace
      = { fs := (osRename sys (currentExe ++ ".backup") currentExe
            (osRename sys currentExe (currentExe ++ ".backup") fs).2).2,
          trace := trace ++ [Effect.rename currentExe (currentExe ++ ".backup"),
            Effect.rename tempPath currentExe,
            Effect.rename (currentExe ++ ".backup") currentExe],
          exit := none } := by
  rcases hbr : osRename sys currentExe (currentExe ++ ".backup") fs with ⟨err, fs1⟩
  rw [hbr] at hb hi
  simp only at hb hi
  subst hb
  have hfs := osRename_of_error sys tempPath currentExe fs1 hi
  rcases hir : osRename sys tempPath currentExe fs1 with ⟨ierr, fs2⟩
  rw [hir] at hi hfs
  simp only at hi hfs
  obtain ⟨e, rfl⟩ := Option.ne_none_iff_exists'.mp hi
  subst hfs
  simp only [swapAndRestart, hbr, hir]

theorem swapAndRestart_of_install_ok (pf : Platform) (sys : Sys)
    (currentExe tempPath : String) (fs : FileSystem) (trace : List Effect)
    (hb : (osRename sys currentExe (currentExe ++ ".backup") fs).1 = none)
    (hi : (osRename sys tempPath currentExe
      (osRename sys currentExe (currentExe ++ ".backup") fs).2).1 = none) :
    swapAndRestart pf sys currentExe tempPath fs trace
      = { fs := (osRemove sys (currentExe ++ ".backup")
            (osRename sys tempPath currentExe
              (osRename sys currentExe (currentExe ++ ".backup") fs).2).2).2,
          trace := trace ++ [Effect.rename currentExe (currentExe ++ ".backup"),
            Effect.rename tempPath currentExe, Effect.remove (currentExe ++ ".backup")]
            ++ requestRestart pf sys ++ [Effect.sleep (500 * 1000000), Effect.exit 0],
          exit := some 0 } := by
  rcases hbr : osRename sys currentExe (currentExe ++ ".backup") fs with ⟨err, fs1⟩
  rw [hbr] at hb hi
  simp only at hb hi
  subst hb
  rcases hir : osRename sys tempPath currentExe fs1 with ⟨ierr, fs2⟩
  rw [hir] at hi
  simp only at hi
  subst hi
  simp only [swapAndRestart, hbr, hir]

theorem updatePrefix_kinds (pf : Platform) (sys : Sys) (downloadURL : String) (force : Bool)
    (fs : FileSystem) (currentExe url : String) :
    ∀ e ∈ Effect.executable :: ((resolveURL pf sys downloadURL force).2
          ++ (downloadFile sys url (currentExe ++ ".new") fs).2.2)
        ++ (if pf.GOOS ≠ "windows" then [Effect.chmod (currentExe ++ ".new")] else []),
      e.isRestart = false ∧ ∀ src dst, e ≠ Effect.rename src dst := by
  intro e he
  have hkinds := downloadFile_trace_kinds sys url (currentExe ++ ".new") fs
  have hres := resolveURL_trace pf sys downloadURL force
  simp only [List.cons_append, List.mem_cons, List.mem_append] at he
  rcases he with h | (h | h) | h
  · subst h; exact ⟨rfl, fun _ _ hh => by cases hh⟩
  · obtain ⟨u, rfl⟩ := hres e h
    exact ⟨rfl, fun _ _ hh => by cases hh⟩
  · rcases hkinds e h with h' | h' | h' | h' <;> subst h' <;>
      exact ⟨rfl, fun _ _ hh => by cases hh⟩
  · split at h
    · rw [List.mem_singleton] at h
      subst h
      exact ⟨rfl, fun _ _ hh => by cases hh⟩
    · cases h

theorem fsAtBackup_of_ne (sys : Sys) (url currentExe : String) (fs : FileSystem) (p : String)
    (hp : p ≠ currentExe ++ ".new") : fsAtBackup sys url currentExe fs p = fs p :=
  downloadFile_fs_of_ne sys url (currentExe ++ ".new") fs p hp

/-- C11, as stated, fails: when the Backup rename succeeds, the Install rename
fails and the restoring rename fails too, the function returns with no file at
the binary's path; the original sits at the backup path. -/
theorem handleUpdateCommand_failed_rollback :
    (handleUpdateCommand linuxBuild busyBinarySys "" true cleanDisk).trace
      = [Effect.executable,
         Effect.clientDo "https://api.github.com/repos/zsai001/vstats/releases/latest",
         Effect.httpGet
           "https://github.com/zsai001/vstats/releases/download/v1.2.0/vstats-agent-linux-amd64",
         Effect.create "/opt/vstats/agent.new", Effect.copy "/opt/vstats/agent.new",
         Effect.chmod "/opt/vstats/agent.new",
         Effect.rename "/opt/vstats/agent" "/opt/vstats/agent.backup",
         Effect.rename "/opt/vstats/agent.new" "/opt/vstats/agent",
         Effect.rename "/opt/vstats/agent.backup" "/opt/vstats/agent"]
    ∧ cleanDisk "/opt/vstats/agent" = some "old-binary"
    ∧ (handleUpdateCommand linuxBuild busyBinarySys "" true cleanDisk).fs "/opt/vstats/agent"
        = none
    ∧ (handleUpdateCommand linuxBuild busyBinarySys "" true cleanDisk).fs
        "/opt/vstats/agent.backup" = some "old-binary" := by
  decide

/-- C11, amended: if the Backup rename succeeds and the Install rename fails,
`handleUpdateCommand` attempts to rename the backup onto `currentExe` and returns
without calling `os.Exit`; the downloaded artifact stays at the temporary path;
and if the restoring rename succeeds the original executable is again at
`currentExe` (if it fails there is no file there and the original is at the
backup path). -/
theorem handleUpdateCommand_install_failure (pf : Platform) (sys : Sys)
    (downloadURL : String) (force : Bool) (fs : FileSystem) (currentExe url : String)
    (hreach : ReachesBackup pf sys downloadURL force fs currentExe url)
    (hbackup : BackupSucceeds sys url currentExe fs)
    (hinstall : ¬ InstallSucceeds sys url currentExe fs) :
    (handleUpdateCommand pf sys downloadURL force fs).exit = none
    ∧ (∀ code, Effect.exit code ∉ (handleUpdateCommand pf sys downloadURL force fs).trace)
    ∧ Effect.rename (currentExe ++ ".backup") currentExe
        ∈ (handleUpdateCommand pf sys downloadURL force fs).trace
    ∧ ∃ original artifact,
        fs currentExe = some original
        ∧ sys.httpGet url = HttpResult.response 200 artifact
        ∧ (handleUpdateCommand pf sys downloadURL force fs).fs (currentExe ++ ".new")
            = some artifact
        ∧ (sys.renameErr (currentExe ++ ".backup") currentExe = none →
            (handleUpdateCommand pf sys downloadURL force fs).fs currentExe = some original)
        ∧ (sys.renameErr (currentExe ++ ".backup") currentExe ≠ none →
            (handleUpdateCommand pf sys downloadURL force fs).fs currentExe = none
            ∧ (handleUpdateCommand pf sys downloadURL force fs).fs (currentExe ++ ".backup")
                = some original) := by
  have hpre := updatePrefix_kinds pf sys downloadURL force fs currentExe url
  rw [handleUpdateCommand_of_reaches_backup pf sys downloadURL force fs currentExe url hreach,
    swapAndRestart_of_install_error pf sys currentExe _ _ _ hbackup hinstall]
  obtain ⟨_, _, hdl, _⟩ := hreach
  obtain ⟨artifact, hget, htmp⟩ := downloadFile_of_ok sys url (currentExe ++ ".new") fs hdl
  obtain ⟨original, hb1, hb2, hb3⟩ := osRename_of_ok sys currentExe (currentExe ++ ".backup")
    (fsAtBackup sys url currentExe fs) hbackup
  have hcur : fs currentExe = some original := by
    rw [← fsAtBackup_of_ne sys url currentExe fs currentExe (append_new_ne currentExe)]
    exact hb2
  have hne1 := append_new_ne currentExe
  have hne2 := append_backup_ne currentExe
  have hne3 := append_new_ne_append_backup currentExe
  refine ⟨rfl, ?_, by simp, original, artifact, hcur, hget, ?_, ?_, ?_⟩
  · intro code hmem
    rcases List.mem_append.mp hmem with h | h
    · have := (hpre _ h).1
      simp [Effect.isRestart] at this
    · simp at h
  · simp only [hb3]
    unfold osRename
    cases hr : sys.renameErr (currentExe ++ ".backup") currentExe <;>
      simp [FileSystem.set, hne1, hne2, hne3, hne1.symm, hne2.symm, hne3.symm]
    · exact htmp
    · exact htmp
  · intro hr
    simp only [hb3]
    unfold osRename
    simp [FileSystem.set, hr, hne2.symm]
  · intro hr
    obtain ⟨e, he⟩ := Option.ne_none_iff_exists'.mp hr
    simp only [hb3]
    unfold osRename
    simp [FileSystem.set, he, hne2, hne2.symm]

/-- C11 amended, on a system where only the Install rename fails: the original
binary is back in place and the process has not exited. -/
theorem handleUpdateCommand_install_failure_witness :
    (handleUpdateCommand linuxBuild installFailsSys "" true cleanDisk).exit = none
    ∧ (handleUpdateCommand linuxBuild installFailsSys "" true cleanDisk).fs "/opt/vstats/agent"
        = some "old-binary"
    ∧ Effect.rename ("/opt/vstats/agent" ++ ".backup") "/opt/vstats/agent"
        ∈ (handleUpdateCommand linuxBuild installFailsSys "" true cleanDisk).trace :=
  have h := handleUpdateCommand_install_failure linuxBuild installFailsSys "" true cleanDisk
    "/opt/vstats/agent"
    "https://github.com/zsai001/vstats/releases/download/v1.2.0/vstats-agent-linux-amd64"
    ⟨rfl, by decide, by decide, fun _ => by decide⟩ (by decide) (by decide)
  ⟨h.1, by decide, h.2.2.1⟩

/-- C12, as stated, fails: when the Backup rename fails and the `os.Remove` of the
temporary file fails too (its error is ignored), the downloaded file is still at
the temporary path when the function returns. -/
theorem handleUpdateCommand_backup_failure_leaves_temp :
    (handleUpdateCommand linuxBuild backupAndRemoveFailSys "" true cleanDisk).trace
      = [Effect.executable,
         Effect.clientDo "https://api.github.com/repos/zsai001/vstats/releases/latest",
         Effect.httpGet
           "https://github.com/zsai001/vstats/releases/download/v1.2.0/vstats-agent-linux-amd64",
         Effect.create "/opt/vstats/agent.new", Effect.copy "/opt/vstats/agent.new",
         Effect.chmod "/opt/vstats/agent.new",
         Effect.rename "/opt/vstats/agent" "/opt/vstats/agent.backup",
         Effect.remove "/opt/vstats/agent.new"]
    ∧ ¬ BackupSucceeds backupAndRemoveFailSys
        "https://github.com/zsai001/vstats/releases/download/v1.2.0/vstats-agent-linux-amd64"
        "/opt/vstats/agent" cleanDisk
    ∧ cleanDisk "/opt/vstats/agent.new" = none
    ∧ (handleUpdateCommand linuxBuild backupAndRemoveFailSys "" true cleanDisk).fs
        "/opt/vstats/agent.new" = some "new-binary"
    ∧ (handleUpdateCommand linuxBuild backupAndRemoveFailSys "" true cleanDisk).exit = none := by
  decide

/-- C12, amended: if the Backup rename fails, `handleUpdateCommand` calls
`os.Remove(tempPath)`, and when that call succeeds no file is left at the
temporary path; the file at `currentExe` and the file at the backup path are
what they were, the only rename attempted is the Backup rename (the Install
rename is never attempted), and the function returns without calling `os.Exit`. -/
theorem handleUpdateCommand_backup_failure (pf : Platform) (sys : Sys)
    (downloadURL : String) (force : Bool) (fs : FileSystem) (currentExe url : String)
    (hreach : ReachesBackup pf sys downloadURL force fs currentExe url)
    (hbackup : ¬ BackupSucceeds sys url currentExe fs) :
    Effect.remove (currentExe ++ ".new")
        ∈ (handleUpdateCommand pf sys downloadURL force fs).trace
    ∧ (sys.removeErr (currentExe ++ ".new") = none →
        (handleUpdateCommand pf sys downloadURL force fs).fs (currentExe ++ ".new") = none)
    ∧ (handleUpdateCommand pf sys downloadURL force fs).fs currentExe = fs currentExe
    ∧ (handleUpdateCommand pf sys downloadURL force fs).fs (currentExe ++ ".backup")
        = fs (currentExe ++ ".backup")
    ∧ (∀ src dst, Effect.rename src dst
          ∈ (handleUpdateCommand pf sys downloadURL force fs).trace →
        src = currentExe ∧ dst = currentExe ++ ".backup")
    ∧ Effect.rename (currentExe ++ ".new") currentExe
        ∉ (handleUpdateCommand pf sys downloadURL force fs).trace
    ∧ (handleUpdateCommand pf sys downloadURL force fs).exit = none
    ∧ (∀ code, Effect.exit code ∉ (handleUpdateCommand pf sys downloadURL force fs).trace) := by
  have hpre := updatePrefix_kinds pf sys downloadURL force fs currentExe url
  rw [handleUpdateCommand_of_reaches_backup pf sys downloadURL force fs currentExe url hreach,
    swapAndRestart_of_backup_error pf sys currentExe _ _ _ hbackup]
  have hne1 := append_new_ne currentExe
  have hne2 := append_backup_ne currentExe
  have hne3 := append_new_ne_append_backup currentExe
  have hren : ∀ src dst, Effect.rename src dst
      ∈ (Effect.executable :: ((resolveURL pf sys downloadURL force).2
            ++ (downloadFile sys url (currentExe ++ ".new") fs).2.2)
          ++ (if pf.GOOS ≠ "windows" then [Effect.chmod (currentExe ++ ".new")] else []))
        ++ [Effect.rename currentExe (currentExe ++ ".backup"),
            Effect.remove (currentExe ++ ".new")] →
      src = currentExe ∧ dst = currentExe ++ ".backup" := by
    intro src dst hmem
    rcases List.mem_append.mp hmem with h | h
    · exact absurd rfl ((hpre _ h).2 src dst)
    · simp at h
      exact h
  refine ⟨by simp, ?_, ?_, ?_, hren, ?_, rfl, ?_⟩
  · intro hrm
    simp only [osRemove_fs, hrm]
    simp
  · simp only [osRemove_fs]
    rw [if_neg (fun h => hne1 h.2)]
    exact fsAtBackup_of_ne sys url currentExe fs currentExe hne1
  · simp only [osRemove_fs]
    rw [if_neg (fun h => hne3 h.2.symm)]
    exact fsAtBackup_of_ne sys url currentExe fs _ hne3.symm
  · intro hmem
    exact hne1 (hren _ _ hmem).1.symm
  · intro code hmem
    rcases List.mem_append.mp hmem with h | h
    · have := (hpre _ h).1
      simp [Effect.isRestart] at this
    · simp at h

/-- C12 amended, on a system where the Backup rename fails and the removal
succeeds: the temporary file is gone, the binary is in place, nothing is at the
backup path. -/
theorem handleUpdateCommand_backup_failure_witness :
    (handleUpdateCommand linuxBuild backupFailsSys "" true cleanDisk).fs "/opt/vstats/agent.new"
      = none
    ∧ (handleUpdateCommand linuxBuild backupFailsSys "" true cleanDisk).fs "/opt/vstats/agent"
      = some "old-binary"
    ∧ (handleUpdateCommand linuxBuild backupFailsSys "" true cleanDisk).fs
        "/opt/vstats/agent.backup" = none
    ∧ Effect.rename ("/opt/vstats/agent" ++ ".new") "/opt/vstats/agent"
        ∉ (handleUpdateCommand linuxBuild backupFailsSys "" true cleanDisk).trace
    ∧ (handleUpdateCommand linuxBuild backupFailsSys "" true cleanDisk).exit = none :=
  have h := handleUpdateCommand_backup_failure linuxBuild backupFailsSys "" true cleanDisk
    "/opt/vstats/agent"
    "https://github.com/zsai001/vstats/releases/download/v1.2.0/vstats-agent-linux-amd64"
    ⟨rfl, by decide, by decide, fun _ => by decide⟩ (by decide)
  ⟨by decide, by decide, by decide, h.2.2.2.2.2.1, h.2.2.2.2.2.2.1⟩

/-- C13: if Download, Permission, Backup and Install all succeed and the removal
of the backup succeeds, then when the restart is requested (the files do not
change after that) the file at `currentExe` is the downloaded artifact and there
is no file at the temporary path and none at the backup path. -/
theorem handleUpdateCommand_success_files (pf : Platform) (sys : Sys)
    (downloadURL : String) (force : Bool) (fs : FileSystem) (currentExe url : String)
    (hreach : ReachesBackup pf sys downloadURL force fs currentExe url)
    (hbackup : BackupSucceeds sys url currentExe fs)
    (hinstall : InstallSucceeds sys url currentExe fs)
    (hremove : sys.removeErr (currentExe ++ ".backup") = none) :
    (∃ artifact, sys.httpGet url = HttpResult.response 200 artifact
        ∧ (handleUpdateCommand pf sys downloadURL force fs).fs currentExe = some artifact)
    ∧ (handleUpdateCommand pf sys downloadURL force fs).fs (currentExe ++ ".new") = none
    ∧ (handleUpdateCommand pf sys downloadURL force fs).fs (currentExe ++ ".backup") = none
    ∧ (∃ before, (handleUpdateCommand pf sys downloadURL force fs).trace
        = before ++ requestRestart pf sys ++ [Effect.sleep (500 * 1000000), Effect.exit 0]
        ∧ ∀ e ∈ before, e.isRestart = false) := by
  have hpre := updatePrefix_kinds pf sys downloadURL force fs currentExe url
  rw [handleUpdateCommand_of_reaches_backup pf sys downloadURL force fs currentExe url hreach,
    swapAndRestart_of_install_ok pf sys currentExe _ _ _ hbackup hinstall]
  obtain ⟨_, _, hdl, _⟩ := hreach
  obtain ⟨artifact, hget, htmp⟩ := downloadFile_of_ok sys url (currentExe ++ ".new") fs hdl
  obtain ⟨original, hb1, hb2, hb3⟩ := osRename_of_ok sys currentExe (currentExe ++ ".backup")
    (fsAtBackup sys url currentExe fs) hbackup
  obtain ⟨content, hi1, hi2, hi3⟩ := osRename_of_ok sys (currentExe ++ ".new") currentExe _
    hinstall
  have hne1 := append_new_ne currentExe
  have hne2 := append_backup_ne currentExe
  have hne3 := append_new_ne_append_backup currentExe
  have hcontent : content = artifact := by
    rw [hb3] at hi2
    simp only [FileSystem.set, if_neg hne3, if_neg hne1.symm] at hi2
    rw [show fsAtBackup sys url currentExe fs (currentExe ++ ".new") = some artifact from htmp]
      at hi2
    exact (Option.some.inj hi2).symm
  subst hcontent
  refine ⟨⟨content, hget, ?_⟩, ?_, ?_, ⟨_, rfl, ?_⟩⟩
  · simp only [osRemove_fs, hi3]
    simp [FileSystem.set, hne2]
  · simp only [osRemove_fs, hi3]
    simp [FileSystem.set, hne1.symm, hne3]
  · simp only [osRemove_fs, hremove]
    simp
  · intro e he
    rcases List.mem_append.mp he with h | h
    · exact (hpre _ h).1
    · simp only [List.mem_cons, List.mem_singleton, List.not_mem_nil, or_false] at h
      rcases h with h | h | h <;> subst h <;> rfl

/-- C13 on a system where every call succeeds: the new binary is installed and
the temporary and backup files are gone. -/
theorem handleUpdateCommand_success_files_witness :
    (handleUpdateCommand linuxBuild workingSys "" true cleanDisk).fs "/opt/vstats/agent"
      = some "new-binary"
    ∧ (handleUpdateCommand linuxBuild workingSys "" true cleanDisk).fs
        ("/opt/vstats/agent" ++ ".new") = none
    ∧ (handleUpdateCommand linuxBuild workingSys "" true cleanDisk).fs
        ("/opt/vstats/agent" ++ ".backup") = none :=
  have h := handleUpdateCommand_success_files linuxBuild workingSys "" true cleanDisk
    "/opt/vstats/agent"
    "https://github.com/zsai001/vstats/releases/download/v1.2.0/vstats-agent-linux-amd64"
    ⟨rfl, by decide, by decide, fun _ => by decide⟩ (by decide) (by decide) rfl
  ⟨by decide, h.2.1, h.2.2.1⟩

theorem handleUpdateCommand_exit_cases (pf : Platform) (sys : Sys) (downloadURL : String)
    (force : Bool) (fs : FileSystem) :
    (AllStagesSucceed pf sys downloadURL force fs
        ∧ (handleUpdateCommand pf sys downloadURL force fs).exit = some 0
        ∧ Effect.exit 0 ∈ (handleUpdateCommand pf sys downloadURL force fs).trace)
    ∨ (¬ AllStagesSucceed pf sys downloadURL force fs
        ∧ (handleUpdateCommand pf sys downloadURL force fs).exit = none
        ∧ ∀ e ∈ (handleUpdateCommand pf sys downloadURL force fs).trace,
            e.isRestart = false) := by
  cases hexe : sys.executable with
  | error e =>
    right
    rw [handleUpdateCommand_of_executable_error pf sys downloadURL force fs e hexe]
    refine ⟨?_, rfl, by simp [Effect.isRestart]⟩
    rintro ⟨c, u, ⟨h, _⟩, _⟩
    rw [hexe] at h
    cases h
  | ok currentExe =>
    have hres := resolveURL_trace pf sys downloadURL force
    rcases hr : resolveURL pf sys downloadURL force with ⟨ourl, t1⟩
    rw [hr] at hres
    simp only at hres
    cases ourl with
    | none =>
      right
      rw [handleUpdateCommand_of_skip pf sys downloadURL force fs currentExe t1 hexe hr]
      refine ⟨?_, rfl, ?_⟩
      · rintro ⟨c, u, ⟨_, h, _⟩, _⟩
        rw [hr] at h
        cases h
      · intro e he
        rcases List.mem_cons.mp he with h | h
        · subst h; rfl
        · obtain ⟨u, rfl⟩ := hres e h
          rfl
    | some url =>
      have hurl : (resolveURL pf sys downloadURL force).1 = some url := by rw [hr]
      have hpre := updatePrefix_kinds pf sys downloadURL force fs currentExe url
      -- any witness of success must use this path and this URL
      have hsame : ∀ c u, ReachesBackup pf sys downloadURL force fs c u →
          c = currentExe ∧ u = url := by
        rintro c u ⟨h1, h2, _⟩
        rw [hexe] at h1
        rw [hurl] at h2
        exact ⟨(Except.ok.inj h1).symm, (Option.some.inj h2).symm⟩
      by_cases hdl : (downloadFile sys url (currentExe ++ ".new") fs).1 = none
      · by_cases hperm : pf.GOOS ≠ "windows" →
            (osChmod sys (currentExe ++ ".new") (fsAtBackup sys url currentExe fs)).1 = none
        · have hreach : ReachesBackup pf sys downloadURL force fs currentExe url :=
            ⟨hexe, hurl, hdl, hperm⟩
          rw [handleUpdateCommand_of_reaches_backup pf sys downloadURL force fs currentExe url
            hreach]
          by_cases hb : BackupSucceeds sys url currentExe fs
          · by_cases hi : InstallSucceeds sys url currentExe fs
            · left
              rw [swapAndRestart_of_install_ok pf sys currentExe _ _ _ hb hi]
              exact ⟨⟨currentExe, url, hreach, hb, hi⟩, rfl, by simp⟩
            · right
              rw [swapAndRestart_of_install_error pf sys currentExe _ _ _ hb hi]
              refine ⟨?_, rfl, ?_⟩
              · rintro ⟨c, u, hc, _, hi2⟩
                obtain ⟨rfl, rfl⟩ := hsame c u hc
                exact hi hi2
              · intro e he
                rcases List.mem_append.mp he with h | h
                · exact (hpre _ h).1
                · simp only [List.mem_cons, List.mem_singleton, List.not_mem_nil, or_false] at h
                  rcases h with h | h | h <;> subst h <;> rfl
          · right
            rw [swapAndRestart_of_backup_error pf sys currentExe _ _ _ hb]
            refine ⟨?_, rfl, ?_⟩
            · rintro ⟨c, u, hc, hb2, _⟩
              obtain ⟨rfl, rfl⟩ := hsame c u hc
              exact hb hb2
            · intro e he
              rcases List.mem_append.mp he with h | h
              · exact (hpre _ h).1
              · simp only [List.mem_cons, List.mem_singleton, List.not_mem_nil, or_false] at h
                rcases h with h | h <;> subst h <;> rfl
        · right
          have hos : pf.GOOS ≠ "windows" := fun h => hperm (fun h2 => absurd h h2)
          have hch : (osChmod sys (currentExe ++ ".new")
              (fsAtBackup sys url currentExe fs)).1 ≠ none := fun h => hperm (fun _ => h)
          rw [handleUpdateCommand_of_chmod_error pf sys downloadURL force fs currentExe url hexe
            hurl hdl hos hch]
          refine ⟨?_, rfl, ?_⟩
          · rintro ⟨c, u, hc, _, _⟩
            obtain ⟨rfl, rfl⟩ := hsame c u hc
            exact hperm hc.2.2.2
          · intro e he
            rcases List.mem_append.mp he with h | h
            · have := (hpre e (List.mem_append_left _ h)).1
              exact this
            · simp only [List.mem_cons, List.mem_singleton, List.not_mem_nil, or_false] at h
              rcases h with h | h <;> subst h <;> rfl
      · right
        rw [handleUpdateCommand_of_download_error pf sys downloadURL force fs currentExe url hexe
          hurl hdl]
        refine ⟨?_, rfl, ?_⟩
        · rintro ⟨c, u, hc, _, _⟩
          obtain ⟨rfl, rfl⟩ := hsame c u hc
          exact hdl hc.2.2.1
        · intro e he
          have := (hpre e (List.mem_append_left _ he)).1
          exact this

/-- C14: `handleUpdateCommand` ends in `os.Exit`, and then with code 0, if and
only if every stage through Install succeeded (path lookup, URL resolution
without skip, Download, Permission, Backup, Install); in every other case it
returns without starting any restart command and without calling `os.Exit`. -/
theorem handleUpdateCommand_exits_iff_installed (pf : Platform) (sys : Sys)
    (downloadURL : String) (force : Bool) (fs : FileSystem) :
    ((handleUpdateCommand pf sys downloadURL force fs).exit = some 0
        ↔ AllStagesSucceed pf sys downloadURL force fs)
    ∧ (∀ code, (handleUpdateCommand pf sys downloadURL force fs).exit = some code → code = 0)
    ∧ (AllStagesSucceed pf sys downloadURL force fs →
        Effect.exit 0 ∈ (handleUpdateCommand pf sys downloadURL force fs).trace)
    ∧ (¬ AllStagesSucceed pf sys downloadURL force fs →
        (handleUpdateCommand pf sys downloadURL force fs).exit = none
        ∧ (∀ argv, Effect.start argv ∉ (handleUpdateCommand pf sys downloadURL force fs).trace)
        ∧ (∀ code, Effect.exit code
            ∉ (handleUpdateCommand pf sys downloadURL force fs).trace)) := by
  rcases handleUpdateCommand_exit_cases pf sys downloadURL force fs with
    ⟨hall, hexit, hmem⟩ | ⟨hnot, hexit, hquiet⟩
  · refine ⟨⟨fun _ => hall, fun _ => hexit⟩, ?_, fun _ => hmem, fun h => absurd hall h⟩
    intro code hc
    rw [hexit] at hc
    exact (Option.some.inj hc).symm
  · refine ⟨⟨fun h => ?_, fun h => absurd h hnot⟩, ?_, fun h => absurd h hnot, fun _ =>
      ⟨hexit, ?_, ?_⟩⟩
    · rw [hexit] at h
      cases h
    · intro code hc
      rw [hexit] at hc
      cases hc
    · intro argv hmem
      have := hquiet _ hmem
      simp [Effect.isRestart] at this
    · intro code hmem
      have := hquiet _ hmem
      simp [Effect.isRestart] at this

/-! ## Theorems: the sender loop and the lifetime of `Run` -/

theorem streamLoop_blocked_append (pf : Platform)
    (unmarshal : String → Except String ServerResponse) (pre : List StreamEvent) :
    ∀ s : StreamState, (streamLoop pf unmarshal s pre).outcome = Outcome.blocked →
      ∃ s' : StreamState, (streamLoop pf unmarshal s pre).agent = s'.agent
        ∧ ∀ rest, streamLoop pf unmarshal s (pre ++ rest) = streamLoop pf unmarshal s' rest := by
  induction pre with
  | nil => intro s _; exact ⟨s, rfl, fun rest => rfl⟩
  | cons ev pre ih =>
    intro s h
    cases ev with
    | metricsTick metrics marshalErr writeErr =>
      cases marshalErr with
      | some e =>
        simp only [streamLoop, List.cons_append] at h ⊢
        exact ih _ h
      | none =>
        cases writeErr with
        | some e => simp [streamLoop] at h
        | none =>
          simp only [streamLoop, List.cons_append] at h ⊢
          exact ih _ h
    | pingTick writeErr =>
      cases writeErr with
      | some e => simp [streamLoop] at h
      | none =>
        simp only [streamLoop, List.cons_append] at h ⊢
        exact ih _ h
    | read message err sys =>
      rcases hstep : readerStep pf unmarshal message err sys s with ⟨s1, code⟩
      cases code with
      | some c => simp [streamLoop, hstep] at h
      | none =>
        simp only [streamLoop, List.cons_append, hstep] at h ⊢
        exact ih _ h
    | done =>
      cases hd : s.done with
      | some err => simp [streamLoop, hd] at h
      | none =>
        simp only [streamLoop, List.cons_append, hd] at h ⊢
        exact ih _ h

theorem connectAndRun_blocked_append (pf : Platform) (config : AgentConfig) (env : ConnEnv)
    (pre : List StreamEvent) (a : Agent)
    (h : (connectAndRun pf config env pre a).outcome = Outcome.blocked) :
    ∃ s' : StreamState, (connectAndRun pf config env pre a).agent = s'.agent
      ∧ ∀ rest, connectAndRun pf config env (pre ++ rest) a
          = streamLoop pf env.unmarshal s' rest := by
  unfold connectAndRun at h ⊢
  cases h1 : env.dialErr with
  | some e => simp [h1] at h
  | none =>
    cases h2 : env.marshalAuthErr with
    | some e => simp [h1, h2] at h
    | none =>
      cases h3 : env.writeAuthErr with
      | some e => simp [h1, h2, h3] at h
      | none =>
        cases h4 : env.authReadErr with
        | some e => simp [h1, h2, h3, h4] at h
        | none =>
          cases h5 : env.unmarshal env.authMessage with
          | error e => simp [h1, h2, h3, h4, h5] at h
          | ok response =>
            by_cases h6 : response.Status = "ok"
            · simp only [h1, h2, h3, h4, h5, h6, ne_eq, not_true_eq_false, if_false] at h ⊢
              exact streamLoop_blocked_append pf env.unmarshal pre _ h
            · simp [h1, h2, h3, h4, h5, h6] at h

/-- C15, as stated, fails: on an authenticated connection a metrics message that
fails to serialize does not end `connectAndRun`; the sender goes on to the next
timer event (here a transport ping). -/
theorem connectAndRun_marshal_failure_continues :
    (connectAndRun linuxBuild sampleConfig okEnv
        [StreamEvent.metricsTick sampleMetrics (some "json: unsupported value") none,
         StreamEvent.pingTick none] sampleAgent).outcome = Outcome.blocked
    ∧ (connectAndRun linuxBuild sampleConfig okEnv
        [StreamEvent.metricsTick sampleMetrics (some "json: unsupported value") none,
         StreamEvent.pingTick none] sampleAgent).agent.trace
      = [Effect.dial "wss://collector.example/ws",
         Effect.writeAuth (AuthMessage.mk "auth" "srv-1" "secret" "1.2.0"),
         Effect.readMessage, Effect.collect, Effect.writePing] := by
  decide

/-- C15, amended: on a connection that is streaming, a failure to write a metrics
frame and a failure to write a transport ping each make `connectAndRun` return a
non-nil error; a failure to serialize a metrics message does not: the sender
writes nothing for that tick and stays in its loop. -/
theorem connectAndRun_write_failure_returns (pf : Platform) (config : AgentConfig)
    (env : ConnEnv) (pre : List StreamEvent) (a : Agent)
    (hstreaming : (connectAndRun pf config env pre a).outcome = Outcome.blocked) :
    (∀ metrics e rest,
        (connectAndRun pf config env
          (pre ++ StreamEvent.metricsTick metrics none (some e) :: rest) a).outcome
          = Outcome.returned (some ("failed to send metrics: " ++ e)))
    ∧ (∀ e rest,
        (connectAndRun pf config env (pre ++ StreamEvent.pingTick (some e) :: rest) a).outcome
          = Outcome.returned (some ("failed to send ping: " ++ e)))
    ∧ (∀ metrics e writeErr,
        (connectAndRun pf config env
          (pre ++ [StreamEvent.metricsTick metrics (some e) writeErr]) a).outcome
          = Outcome.blocked
        ∧ (connectAndRun pf config env
            (pre ++ [StreamEvent.metricsTick metrics (some e) writeErr]) a).agent.trace
          = (connectAndRun pf config env pre a).agent.trace ++ [Effect.collect]) := by
  obtain ⟨s', hagent, happ⟩ := connectAndRun_blocked_append pf config env pre a hstreaming
  refine ⟨?_, ?_, ?_⟩
  · intro metrics e rest
    rw [happ]
    simp [streamLoop]
  · intro e rest
    rw [happ]
    simp [streamLoop]
  · intro metrics e writeErr
    rw [happ, hagent]
    simp [streamLoop]

/-- C15 amended, on an authenticated connection whose first metrics write fails. -/
theorem connectAndRun_write_failure_returns_witness :
    (connectAndRun linuxBuild sampleConfig okEnv
        ([] ++ StreamEvent.metricsTick sampleMetrics none (some "broken pipe") :: []) sampleAgent
      ).outcome = Outcome.returned (some ("failed to send metrics: " ++ "broken pipe")) :=
  (connectAndRun_write_failure_returns linuxBuild sampleConfig okEnv [] sampleAgent
    (by decide)).1 sampleMetrics "broken pipe" []

theorem binaryName_eq (pf : Platform) :
    binaryName pf
      = "vstats-agent-" ++ pf.GOOS ++ "-" ++ pf.GOARCH
          ++ (if pf.GOOS = "windows" then ".exe" else "") := by
  have harch : (if pf.GOARCH = "amd64" then "amd64"
      else if pf.GOARCH = "arm64" then "arm64"
      else if pf.GOARCH = "386" then "386" else pf.GOARCH) = pf.GOARCH := by
    split_ifs with h1 h2 h3
    · exact h1.symm
    · exact h2.symm
    · exact h3.symm
    · rfl
  unfold binaryName
  simp only [harch]
  split_ifs
  · rfl
  · simp

theorem releaseURL_latest (name : String) :
    "https://github.com/zsai001/vstats/releases/download/" ++ "latest" ++ "/" ++ name
      = "https://github.com/zsai001/vstats/releases/download/latest/" ++ name := by
  have h : "https://github.com/zsai001/vstats/releases/download/" ++ "latest" ++ "/"
      = "https://github.com/zsai001/vstats/releases/download/latest/" := by decide
  rw [h]

theorem fetchLatestGitHubVersion_error_iff (sys : Sys) (owner repo : String) :
    (fetchLatestGitHubVersion sys owner repo).2.1 ≠ none ↔
      ((∃ e, sys.clientDo
          ("https://api.github.com/repos/" ++ owner ++ "/" ++ repo ++ "/releases/latest")
            = HttpResult.failed e)
        ∨ (∃ code body, sys.clientDo
            ("https://api.github.com/repos/" ++ owner ++ "/" ++ repo ++ "/releases/latest")
              = HttpResult.response code body
            ∧ (code ≠ 200 ∨ (∃ e, sys.unmarshalTagName body = Except.error e)
                ∨ sys.unmarshalTagName body = Except.ok none))) := by
  unfold fetchLatestGitHubVersion
  simp only []
  cases h1 : sys.clientDo
      ("https://api.github.com/repos/" ++ owner ++ "/" ++ repo ++ "/releases/latest") with
  | failed e => simp
  | response code body =>
    by_cases h2 : code = 200
    · subst h2
      rcases h3 : sys.unmarshalTagName body with e | (_ | tag)
      · simp [h3]
        exact ⟨200, body, ⟨rfl, rfl⟩, Or.inr (Or.inl ⟨e, h3⟩)⟩
      · simp [h3]
        exact ⟨200, body, ⟨rfl, rfl⟩, Or.inr (Or.inr h3)⟩
      · simp [h3]
    · simp [h2]
      exact ⟨code, body, ⟨rfl, rfl⟩, Or.inl h2⟩

theorem resolveURL_of_query_error (pf : Platform) (sys : Sys) (force : Bool)
    (herr : (fetchLatestGitHubVersion sys "zsai001" "vstats").2.1 ≠ none) :
    (resolveURL pf sys "" force).1
      = some ("https://github.com/zsai001/vstats/releases/download/" ++ "latest" ++ "/"
          ++ binaryName pf) := by
  rcases hq : fetchLatestGitHubVersion sys "zsai001" "vstats" with ⟨latest, err, t⟩
  rw [hq] at herr
  simp only at herr
  obtain ⟨e, rfl⟩ := Option.ne_none_iff_exists'.mp herr
  unfold resolveURL
  simp only [if_true, hq]

theorem handleUpdateCommand_requests (pf : Platform) (sys : Sys) (downloadURL : String)
    (force : Bool) (fs : FileSystem) (currentExe url : String)
    (hexe : sys.executable = Except.ok currentExe)
    (hurl : (resolveURL pf sys downloadURL force).1 = some url) :
    Effect.httpGet url ∈ (handleUpdateCommand pf sys downloadURL force fs).trace
    ∧ ∀ u, Effect.httpGet u ∈ (handleUpdateCommand pf sys downloadURL force fs).trace →
        u = url := by
  obtain ⟨rest, htrace, hrest⟩ := handleUpdateCommand_trace_of_url pf sys downloadURL force fs
    currentExe url hexe hurl
  obtain ⟨rest2, hhead⟩ := downloadFile_trace_head sys url (currentExe ++ ".new") fs
  have hkinds := downloadFile_trace_kinds sys url (currentExe ++ ".new") fs
  have hres := resolveURL_trace pf sys downloadURL force
  rw [htrace]
  constructor
  · rw [hhead]; simp
  · intro u hu
    simp only [List.cons_append, List.mem_cons, List.mem_append] at hu
    rcases hu with h | (h | h) | h
    · cases h
    · obtain ⟨v, hv⟩ := hres _ h
      cases hv
    · rcases hkinds _ h with h' | h' | h' | h'
      · cases h'; rfl
      · cases h'
      · cases h'
      · cases h'
    · have := hrest _ h
      simp [Effect.isRequest] at this

/-- C16: with an empty `download_url`, once the release index has been queried:
if `fetchLatestGitHubVersion` returned an error, then for every `force` and every
running version the update is not skipped and the one URL requested for download
is `https://github.com/zsai001/vstats/releases/download/latest/` followed by
`vstats-agent-<os>-<arch>`, with `.exe` appended exactly when the OS is
`windows`; if it returned tag `T` and the update is not skipped, the URL is the
same with `T` in place of `latest`. -/
theorem handleUpdateCommand_release_url (pf : Platform) (sys : Sys) (force : Bool)
    (fs : FileSystem)
    (hqueried : ∃ u, Effect.clientDo u ∈ (handleUpdateCommand pf sys "" force fs).trace) :
    ((fetchLatestGitHubVersion sys "zsai001" "vstats").2.1 ≠ none →
        (resolveURL pf sys "" force).1
          = some ("https://github.com/zsai001/vstats/releases/download/latest/"
              ++ ("vstats-agent-" ++ pf.GOOS ++ "-" ++ pf.GOARCH
                ++ (if pf.GOOS = "windows" then ".exe" else "")))
        ∧ Effect.httpGet ("https://github.com/zsai001/vstats/releases/download/latest/"
              ++ ("vstats-agent-" ++ pf.GOOS ++ "-" ++ pf.GOARCH
                ++ (if pf.GOOS = "windows" then ".exe" else "")))
            ∈ (handleUpdateCommand pf sys "" force fs).trace
        ∧ ∀ u, Effect.httpGet u ∈ (handleUpdateCommand pf sys "" force fs).trace →
            u = "https://github.com/zsai001/vstats/releases/download/latest/"
              ++ ("vstats-agent-" ++ pf.GOOS ++ "-" ++ pf.GOARCH
                ++ (if pf.GOOS = "windows" then ".exe" else "")))
    ∧ (∀ T, (fetchLatestGitHubVersion sys "zsai001" "vstats").1 = some T
          ∧ (fetchLatestGitHubVersion sys "zsai001" "vstats").2.1 = none →
        ¬ (force = false ∧ TrimPrefix T "v" = TrimPrefix pf.AgentVersion "v") →
        (resolveURL pf sys "" force).1
          = some ("https://github.com/zsai001/vstats/releases/download/" ++ T ++ "/"
              ++ ("vstats-agent-" ++ pf.GOOS ++ "-" ++ pf.GOARCH
                ++ (if pf.GOOS = "windows" then ".exe" else "")))
        ∧ Effect.httpGet ("https://github.com/zsai001/vstats/releases/download/" ++ T ++ "/"
              ++ ("vstats-agent-" ++ pf.GOOS ++ "-" ++ pf.GOARCH
                ++ (if pf.GOOS = "windows" then ".exe" else "")))
            ∈ (handleUpdateCommand pf sys "" force fs).trace
        ∧ ∀ u, Effect.httpGet u ∈ (handleUpdateCommand pf sys "" force fs).trace →
            u = "https://github.com/zsai001/vstats/releases/download/" ++ T ++ "/"
              ++ ("vstats-agent-" ++ pf.GOOS ++ "-" ++ pf.GOARCH
                ++ (if pf.GOOS = "windows" then ".exe" else ""))) := by
  obtain ⟨currentExe, hexe⟩ : ∃ c, sys.executable = Except.ok c := by
    cases hexe : sys.executable with
    | error e =>
      rw [handleUpdateCommand_of_executable_error pf sys "" force fs e hexe] at hqueried
      simp at hqueried
    | ok c => exact ⟨c, rfl⟩
  constructor
  · intro herr
    have hurl := resolveURL_of_query_error pf sys force herr
    rw [releaseURL_latest, binaryName_eq] at hurl
    obtain ⟨h1, h2⟩ := handleUpdateCommand_requests pf sys "" force fs currentExe _ hexe hurl
    exact ⟨hurl, h1, h2⟩
  · intro T hT hskip
    rcases hq : fetchLatestGitHubVersion sys "zsai001" "vstats" with ⟨latest, err, t⟩
    rw [hq] at hT
    obtain ⟨h1, h2⟩ := hT
    simp only at h1 h2
    subst h1 h2
    have hres := resolveURL_of_latest pf sys force T t hq
    rw [if_neg hskip] at hres
    have hurl : (resolveURL pf sys "" force).1
        = some ("https://github.com/zsai001/vstats/releases/download/" ++ T ++ "/"
            ++ binaryName pf) := by rw [hres]
    rw [binaryName_eq] at hurl
    obtain ⟨h1, h2⟩ := handleUpdateCommand_requests pf sys "" force fs currentExe _ hexe hurl
    exact ⟨hurl, h1, h2⟩

/-- C16 on a Linux build with the release index unreachable: the download is
requested from the `latest` release. -/
theorem handleUpdateCommand_release_url_witness :
    Effect.httpGet "https://github.com/zsai001/vstats/releases/download/latest/vstats-agent-linux-amd64"
        ∈ (handleUpdateCommand linuxBuild noIndexSys "" false cleanDisk).trace
    ∧ Effect.httpGet ("https://github.com/zsai001/vstats/releases/download/latest/"
          ++ ("vstats-agent-" ++ linuxBuild.GOOS ++ "-" ++ linuxBuild.GOARCH
            ++ (if linuxBuild.GOOS = "windows" then ".exe" else "")))
        ∈ (handleUpdateCommand linuxBuild noIndexSys "" false cleanDisk).trace :=
  ⟨by decide,
    ((handleUpdateCommand_release_url linuxBuild noIndexSys false cleanDisk
      ⟨"https://api.github.com/repos/zsai001/vstats/releases/latest", by decide⟩).1
      (by decide)).2.1⟩

theorem readerStep_done (pf : Platform) (unmarshal : String → Except String ServerResponse)
    (message : String) (err : Option String) (sys : Sys) (s : StreamState)
    (h : s.done = none ∨ ∃ e, s.done = some (some e)) :
    (readerStep pf unmarshal message err sys s).1.done = none
      ∨ ∃ e, (readerStep pf unmarshal message err sys s).1.done = some (some e) := by
  unfold readerStep
  cases hd : s.done with
  | some v =>
    rcases h with h | ⟨e, h⟩
    · rw [hd] at h; cases h
    · simp only []
      exact Or.inr ⟨e, h⟩
  | none =>
    cases err with
    | some e => exact Or.inr ⟨e, rfl⟩
    | none =>
      cases unmarshal message with
      | error e => exact Or.inl rfl
      | ok response => exact Or.inl rfl

theorem streamLoop_returned_ne_none (pf : Platform)
    (unmarshal : String → Except String ServerResponse) (schedule : List StreamEvent) :
    ∀ s : StreamState, (s.done = none ∨ ∃ e, s.done = some (some e)) →
      ∀ err, (streamLoop pf unmarshal s schedule).outcome = Outcome.returned err →
        err ≠ none := by
  induction schedule with
  | nil => intro s _ err h; simp [streamLoop] at h
  | cons ev rest ih =>
    intro s hs err h
    cases ev with
    | metricsTick metrics marshalErr writeErr =>
      cases marshalErr with
      | some e =>
        simp only [streamLoop] at h
        exact ih _ (by exact hs) err h
      | none =>
        cases writeErr with
        | some e =>
          simp only [streamLoop, Outcome.returned.injEq] at h
          rw [← h]; simp
        | none =>
          simp only [streamLoop] at h
          exact ih _ (by exact hs) err h
    | pingTick writeErr =>
      cases writeErr with
      | some e =>
        simp only [streamLoop, Outcome.returned.injEq] at h
        rw [← h]; simp
      | none =>
        simp only [streamLoop] at h
        exact ih _ (by exact hs) err h
    | read message rerr sys =>
      have hstep := readerStep_done pf unmarshal message rerr sys s hs
      rcases hr : readerStep pf unmarshal message rerr sys s with ⟨s1, code⟩
      rw [hr] at hstep
      cases code with
      | some c => simp [streamLoop, hr] at h
      | none =>
        simp only [streamLoop, hr] at h
        exact ih s1 hstep err h
    | done =>
      cases hd : s.done with
      | some v =>
        simp only [streamLoop, hd, Outcome.returned.injEq] at h
        rcases hs with hs | ⟨e, hs⟩
        · rw [hd] at hs; cases hs
        · rw [hd] at hs
          rw [← h, Option.some.inj hs]
          simp
      | none =>
        simp only [streamLoop, hd] at h
        exact ih s hs err h

theorem connectAndRun_returned_ne_none (pf : Platform) (config : AgentConfig) (env : ConnEnv)
    (schedule : List StreamEvent) (a : Agent) (err : Option String)
    (h : (connectAndRun pf config env schedule a).outcome = Outcome.returned err) :
    err ≠ none := by
  unfold connectAndRun at h
  cases h1 : env.dialErr with
  | some e => simp [h1] at h; rw [← h]; simp
  | none =>
    cases h2 : env.marshalAuthErr with
    | some e => simp [h1, h2] at h; rw [← h]; simp
    | none =>
      cases h3 : env.writeAuthErr with
      | some e => simp [h1, h2, h3] at h; rw [← h]; simp
      | none =>
        cases h4 : env.authReadErr with
        | some e => simp [h1, h2, h3, h4] at h; rw [← h]; simp
        | none =>
          cases h5 : env.unmarshal env.authMessage with
          | error e => simp [h1, h2, h3, h4, h5] at h; rw [← h]; simp
          | ok response =>
            by_cases h6 : response.Status = "ok"
            · simp only [h1, h2, h3, h4, h5, h6, ne_eq, not_true_eq_false, if_false] at h
              exact streamLoop_returned_ne_none pf env.unmarshal schedule _ (Or.inl rfl) err h
            · simp [h1, h2, h3, h4, h5, h6] at h; rw [← h]; simp

theorem runConnections_eq_runLoop (pf : Platform) (config : AgentConfig)
    (attempts : List (ConnEnv × List StreamEvent)) :
    ∀ (d : Duration) (a : Agent), ∃ results : List (Option String),
      (∀ r ∈ results, r ≠ none) ∧ runConnections pf config d attempts a = runLoop d results := by
  induction attempts with
  | nil => intro d a; exact ⟨[], by simp, rfl⟩
  | cons at_ rest ih =>
    intro d a
    obtain ⟨env, schedule⟩ := at_
    cases ho : (connectAndRun pf config env schedule a).outcome with
    | returned err =>
      have hne := connectAndRun_returned_ne_none pf config env schedule a err ho
      obtain ⟨results, hres, heq⟩ := ih (backoff (delayAfterAttempt d err))
        (connectAndRun pf config env schedule a).agent
      refine ⟨err :: results, ?_, ?_⟩
      · intro r hr
        rcases List.mem_cons.mp hr with h | h
        · rw [h]; exact hne
        · exact hres r h
      · simp only [runConnections, ho, runLoop, heq]
    | exited code => exact ⟨[], by simp, by simp [runConnections, ho, runLoop]⟩
    | blocked => exact ⟨[], by simp, by simp [runConnections, ho, runLoop]⟩

theorem runLoop_no_nil_attempt (results : List (Option String))
    (h : ∀ r ∈ results, r ≠ none) :
    ∀ d : Duration, ∀ ev ∈ runLoop d results, ev ≠ RunEvent.attempt none := by
  induction results with
  | nil => intro d ev hev; simp [runLoop] at hev
  | cons r rest ih =>
    intro d ev hev
    simp only [runLoop, List.mem_cons] at hev
    rcases hev with hev | hev | hev
    · rw [hev]
      intro hc
      exact h r (List.mem_cons_self _ _) (RunEvent.attempt.inj hc)
    · rw [hev]; intro hc; cases hc
    · exact ih (fun x hx => h x (List.mem_cons_of_mem _ hx)) _ ev hev

/-- C17: every value `connectAndRun` returns is a non-nil error, whatever the
environment and the schedule; hence in `Run`, driven by `connectAndRun`, no
attempt ever returns nil (the branch that resets the delay is not taken) and the
delays slept are 5, 10, 20, 40, 60, 60, ... seconds: the i-th sleep (from 0) is
`min(5s * 2^i, 60s)`. -/
theorem connectAndRun_never_returns_nil (pf : Platform) (config : AgentConfig) :
    (∀ (env : ConnEnv) (schedule : List StreamEvent) (a : Agent) (err : Option String),
        (connectAndRun pf config env schedule a).outcome = Outcome.returned err → err ≠ none)
    ∧ (∀ (attempts : List (ConnEnv × List StreamEvent)) (a : Agent),
        (∀ ev ∈ runConnections pf config InitialReconnectDelay attempts a,
            ev ≠ RunEvent.attempt none)
        ∧ sleeps (runConnections pf config InitialReconnectDelay attempts a)
            = (List.range
                (sleeps (runConnections pf config InitialReconnectDelay attempts a)).length).map
                (fun i => min (5 * Second * 2 ^ i) (60 * Second))) := by
  refine ⟨connectAndRun_returned_ne_none pf config, ?_⟩
  intro attempts a
  obtain ⟨results, hres, heq⟩ := runConnections_eq_runLoop pf config attempts
    InitialReconnectDelay a
  rw [heq]
  refine ⟨runLoop_no_nil_attempt results hres InitialReconnectDelay, ?_⟩
  have hs := sleeps_Run_failures results hres
  unfold Run at hs
  rw [hs]
  simp only [List.length_map, List.length_range]
  rfl

theorem runConnections_rejected_token_sample :
    sleeps (runConnections linuxBuild sampleConfig InitialReconnectDelay
        (List.replicate 6 (badTokenEnv, [])) sampleAgent)
      = [5 * Second, 10 * Second, 20 * Second, 40 * Second, 60 * Second, 60 * Second] := by
  decide

/-! ## Theorems: WMIC parsing and the admin user handlers -/

/-- C18 fails on the code: a line of WMIC output with exactly five fields whose
second field is a positive integer passes the guard `len(parts) >= 5`, and the
parse then evaluates `parts[5]`, which is out of range; the panic ends the whole
collection.  A line with six fields is parsed. -/
theorem parseWmicLine_five_fields_out_of_range :
    (Split "PC,8589934592,DIMM0,26,3200" ',').length = 5
    ∧ ParseUint (TrimSpace "8589934592") 64 = some 8589934592
    ∧ parseWmicLine "PC,8589934592,DIMM0,26,3200"
        = Except.error "index out of range [5] with length 5"
    ∧ collectMemoryModulesWindows
        ["Node,Capacity,DeviceLocator,MemoryType,Speed", "PC,8589934592,DIMM0,26,3200"]
        = Except.error "index out of range [5] with length 5"
    ∧ parseWmicLine "PC,8589934592,DIMM0,26,3200,Samsung"
        = Except.ok (some (MemoryModule.mk "DIMM0" 8589934592 "DDR4" 3200 "Samsung")) :=
  ⟨by decide, by decide, rfl, rfl, rfl⟩

theorem index_of_lt (parts : List String) (i : Nat) (h : i < parts.length) :
    index parts i = Except.ok (parts.get ⟨i, h⟩) := by
  unfold index
  rw [List.getElem?_eq_getElem h]
  rfl

theorem index_of_ge (parts : List String) (i : Nat) (h : parts.length ≤ i) :
    index parts i = Except.error ("index out of range [" ++ toString i ++ "] with length "
      ++ toString parts.length) := by
  unfold index
  rw [List.getElem?_eq_none h]

theorem parseWmicLine_five_fields (line : String) (size : Nat)
    (hlen : (Split line ',').length = 5)
    (hsize : ∀ h : 1 < (Split line ',').length,
      ParseUint (TrimSpace ((Split line ',').get ⟨1, h⟩)) 64 = some size)
    (hpos : size > 0) :
    parseWmicLine line = Except.error "index out of range [5] with length 5" := by
  have h1 : 1 < (Split line ',').length := by omega
  have h2 : 2 < (Split line ',').length := by omega
  have h3 : 3 < (Split line ',').length := by omega
  have h4 : 4 < (Split line ',').length := by omega
  have h5 : (Split line ',').length ≤ 5 := by omega
  have hge : (Split line ',').length ≥ 5 := by omega
  unfold parseWmicLine
  simp only [if_pos hge, index_of_lt _ 1 h1, index_of_lt _ 2 h2, index_of_lt _ 3 h3,
    index_of_lt _ 4 h4, index_of_ge _ 5 h5, hsize h1, if_pos hpos, hlen, bind, Except.bind]
  rfl

theorem parseWmicLine_six_fields (line : String) (h : (Split line ',').length ≥ 6) :
    ∃ r, parseWmicLine line = Except.ok r := by
  have h1 : 1 < (Split line ',').length := by omega
  have h2 : 2 < (Split line ',').length := by omega
  have h3 : 3 < (Split line ',').length := by omega
  have h4 : 4 < (Split line ',').length := by omega
  have h5 : 5 < (Split line ',').length := by omega
  have hge : (Split line ',').length ≥ 5 := by omega
  unfold parseWmicLine
  simp only [if_pos hge, index_of_lt _ 1 h1, index_of_lt _ 2 h2, index_of_lt _ 3 h3,
    index_of_lt _ 4 h4, index_of_lt _ 5 h5, bind, Except.bind, pure, Except.pure]
  split
  · exact ⟨_, rfl⟩
  · split
    · exact ⟨_, rfl⟩
    · exact ⟨_, rfl⟩

/-- C19 fails on the code: for `page=9223372036854775807` (the largest `int`) and
`page_size=20` the product `(page - 1) * pageSize` overflows, and the offset
handed to `database.ListAllUsers` is -40.  Page and page size themselves are
normalised as the claim says. -/
theorem ListUsers_offset_overflow :
    listUsersPaging (some "9223372036854775807") (some "20")
      = (9223372036854775807, 20, -40)
    ∧ (ListUsers sampleDatabase "zsai001" (some "9223372036854775807") (some "20") ""
        sampleUsers).2 = [DbCall.ListAllUsers 20 (-40) ""]
    ∧ listUsersPaging (some "-3") (some "1000") = (1, 20, 0)
    ∧ listUsersPaging none (some "abc") = (1, 20, 0)
    ∧ listUsersPaging (some "3") (some "50") = (3, 50, 100) := by
  decide

theorem Atoi_range (s : String) :
    -9223372036854775808 ≤ Atoi s ∧ Atoi s ≤ 9223372036854775807 := by
  unfold Atoi
  simp only []
  repeat' split
  all_goals omega

theorem listUsersPaging_bounds (pageQuery pageSizeQuery : Option String) :
    1 ≤ (listUsersPaging pageQuery pageSizeQuery).1
    ∧ (listUsersPaging pageQuery pageSizeQuery).1 ≤ 9223372036854775807
    ∧ 1 ≤ (listUsersPaging pageQuery pageSizeQuery).2.1
    ∧ (listUsersPaging pageQuery pageSizeQuery).2.1 ≤ 100
    ∧ ((Atoi (DefaultQuery pageSizeQuery "20") < 1 ∨ Atoi (DefaultQuery pageSizeQuery "20") > 100) →
        (listUsersPaging pageQuery pageSizeQuery).2.1 = 20) := by
  have hp := Atoi_range (DefaultQuery pageQuery "1")
  unfold listUsersPaging
  simp only []
  refine ⟨?_, ?_, ?_, ?_, ?_⟩
  · split_ifs <;> omega
  · split_ifs <;> omega
  · split_ifs <;> omega
  · split_ifs <;> omega
  · intro h
    rw [if_pos h]

theorem listUsersPaging_offset (pageQuery pageSizeQuery : Option String)
    (hsmall : (listUsersPaging pageQuery pageSizeQuery).1 ≤ 92233720368547758) :
    (listUsersPaging pageQuery pageSizeQuery).2.2
        = ((listUsersPaging pageQuery pageSizeQuery).1 - 1)
          * (listUsersPaging pageQuery pageSizeQuery).2.1
    ∧ 0 ≤ (listUsersPaging pageQuery pageSizeQuery).2.2 := by
  obtain ⟨h1, _, h3, h4, _⟩ := listUsersPaging_bounds pageQuery pageSizeQuery
  unfold listUsersPaging at h1 h3 h4 hsmall ⊢
  simp only [] at h1 h3 h4 hsmall ⊢
  generalize (if Atoi (DefaultQuery pageQuery "1") < 1 then 1
    else Atoi (DefaultQuery pageQuery "1")) = page at h1 hsmall ⊢
  generalize (if Atoi (DefaultQuery pageSizeQuery "20") < 1
      ∨ Atoi (DefaultQuery pageSizeQuery "20") > 100 then 20
    else Atoi (DefaultQuery pageSizeQuery "20")) = pageSize at h3 h4 ⊢
  have hw1 : wrapInt64 (page - 1) = page - 1 :=
    wrapInt64_of_inRange _ (by omega) (by omega)
  have hnn : 0 ≤ (page - 1) * pageSize := mul_nonneg (by omega) (by omega)
  have hub : (page - 1) * pageSize ≤ 92233720368547757 * 100 :=
    mul_le_mul (by omega) h4 (by omega) (by norm_num)
  rw [hw1, wrapInt64_of_inRange _ (by omega) (by omega)]
  exact ⟨rfl, hnn⟩

theorem totalPages_ceil (total pageSize : Int) (htotal : 0 ≤ total)
    (hfit : total ≤ 9223372036854775707) (h1 : 1 ≤ pageSize) (h100 : pageSize ≤ 100) :
    total ≤ totalPages total pageSize * pageSize
    ∧ (totalPages total pageSize - 1) * pageSize < total := by
  unfold totalPages
  rw [wrapInt64_of_inRange (total + pageSize) (by omega) (by omega),
    wrapInt64_of_inRange (total + pageSize - 1) (by omega) (by omega)]
  rw [Int.tdiv_eq_ediv (by omega) (by omega)]
  have hdiv := Int.ediv_add_emod (total + pageSize - 1) pageSize
  have hmod1 := Int.emod_nonneg (total + pageSize - 1) (show pageSize ≠ 0 by omega)
  have hmod2 := Int.emod_lt_of_pos (total + pageSize - 1) (show 0 < pageSize by omega)
  constructor
  · nlinarith
  · nlinarith

/-- C20 fails on the code: an admin request with the valid plan "pro" and the
invalid status "bogus" is answered with HTTP 400 after `UpdateUserPlan` has been
called, so on a database where that call takes effect the user's plan has
changed; a request rejected for its plan changes nothing. -/
theorem UpdateUser_rejected_after_plan_change :
    UpdateUser sampleDatabase "zsai001" "u1" (some { Plan := "pro", Status := "bogus" })
        sampleUsers
      = (Reply.error 400 "Invalid status. Must be 'active' or 'suspended'",
         [SampleUser.mk "u1" "pro" "active"], [DbCall.UpdateUserPlan "u1" "pro"])
    ∧ sampleUsers = [SampleUser.mk "u1" "free" "active"]
    ∧ UpdateUser sampleDatabase "zsai001" "u1" (some { Plan := "bogus", Status := "suspended" })
        sampleUsers
      = (Reply.error 400 "Invalid plan. Must be 'free', 'pro', or 'enterprise'",
         sampleUsers, []) := by
  decide

theorem UpdateUser_invalid_status_after_plan {σ υ : Type} (db : Database σ υ)
    (username userID : String) (req : UpdateUserRequest) (st : σ)
    (hadmin : IsAdmin username = true) (hplan : req.Plan ≠ "")
    (hvalid : validPlans req.Plan = true)
    (hupdated : (db.UpdateUserPlan userID req.Plan st).1 = none)
    (hstatus : req.Status ≠ "") (hinvalid : validStatuses req.Status = false) :
    UpdateUser db username userID (some req) st
      = (Reply.error 400 "Invalid status. Must be 'active' or 'suspended'",
         (db.UpdateUserPlan userID req.Plan st).2, [DbCall.UpdateUserPlan userID req.Plan]) := by
  rcases hu : db.UpdateUserPlan userID req.Plan st with ⟨err, st1⟩
  rw [hu] at hupdated
  simp only at hupdated
  subst hupdated
  simp [UpdateUser, updateUserStatusStage, hadmin, hplan, hvalid, hu, hstatus, hinvalid]

theorem UpdateUser_invalid_plan {σ υ : Type} (db : Database σ υ)
    (username userID : String) (req : UpdateUserRequest) (st : σ)
    (hadmin : IsAdmin username = true) (hplan : req.Plan ≠ "")
    (hinvalid : validPlans req.Plan = false) :
    UpdateUser db username userID (some req) st
      = (Reply.error 400 "Invalid plan. Must be 'free', 'pro', or 'enterprise'", st, []) := by
  simp [UpdateUser, hadmin, hplan, hinvalid]

end VStats
